import Mathlib

/-!
# PhantasyTestbed: emulated game controller and camera update

A shallow embedding of `src/src/TestbedUpdateable.cpp`:

* `updateEmulatedController` (decay pass, event fold, stick synthesis),
* `processInput`,
* `updateTick` and `setDir`.

`float` is modelled by `ℝ` (exact real arithmetic); `setDir` is modelled a second
time over binary32 (`setDirF`), for what depends on rounding.  The vector helpers of the
sfz math library (`length`, `normalize`, `safeNormalize`, `dot`, `cross`,
`mat3::rotation3`) and the SDL constants are not part of this repository; they
are written out below with the meaning their names and the specification give
them.
-/

namespace PhantasyTestbed

/-! ## Data model -/

/-- The four-valued button lifecycle of `sdl::ButtonState`. -/
inductive ButtonState where
  | NOT_PRESSED
  | DOWN
  | HELD
  | UP
  deriving DecidableEq, Repr

/-- A two-dimensional vector (`sfz::vec2`) over the reals. -/
@[ext] structure Vec2 where
  x : ℝ
  y : ℝ

/-- A three-dimensional vector (`sfz::vec3`) over the reals. -/
@[ext] structure Vec3 where
  x : ℝ
  y : ℝ
  z : ℝ

/-- A 3x3 matrix (`sfz::mat3`), stored as its three rows. -/
structure Mat3 where
  r0 : Vec3
  r1 : Vec3
  r2 : Vec3

/-- The unified controller state `sdl::GameControllerState`: the buttons, the
two analogue sticks, the two triggers and the two deadzones. -/
structure GameControllerState where
  a : ButtonState
  b : ButtonState
  x : ButtonState
  y : ButtonState
  stickDeadzone : ℝ
  triggerDeadzone : ℝ
  leftStick : Vec2
  rightStick : Vec2
  leftStickButton : ButtonState
  rightStickButton : ButtonState
  leftShoulder : ButtonState
  rightShoulder : ButtonState
  leftTrigger : ℝ
  rightTrigger : ℝ
  padUp : ButtonState
  padDown : ButtonState
  padLeft : ButtonState
  padRight : ButtonState
  start : ButtonState
  back : ButtonState
  guide : ButtonState

/-- The keyboard emulation of a controller (`EmulatedGameController`): the
controller state it produces plus the directional sub-states of both sticks and
the shift modifier. -/
structure EmulatedGameController where
  state : GameControllerState
  leftStickUp : ButtonState
  leftStickDown : ButtonState
  leftStickLeft : ButtonState
  leftStickRight : ButtonState
  shiftPressed : ButtonState
  rightStickUp : ButtonState
  rightStickDown : ButtonState
  rightStickLeft : ButtonState
  rightStickRight : ButtonState

/-- The part of an `SDL_Event` that the program reads: the event type and, for
keyboard events, the key code `key.keysym.sym`. -/
structure SDL_Event where
  type : Nat
  sym : Int
  deriving DecidableEq, Repr

/-- Event type `SDL_KEYDOWN` (0x300). -/
@[reducible] def SDL_KEYDOWN : Nat := 768
/-- Event type `SDL_KEYUP` (0x301). -/
@[reducible] def SDL_KEYUP : Nat := 769

/-- Key code of the character `w`. -/
@[reducible] def KEY_w : Int := 119
/-- Key code of the character `W`. -/
@[reducible] def KEY_W : Int := 87
/-- Key code of the character `s`. -/
@[reducible] def KEY_s : Int := 115
/-- Key code of the character `S`. -/
@[reducible] def KEY_S : Int := 83
/-- Key code of the character `a`. -/
@[reducible] def KEY_a : Int := 97
/-- Key code of the character `A`. -/
@[reducible] def KEY_A : Int := 65
/-- Key code of the character `d`. -/
@[reducible] def KEY_d : Int := 100
/-- Key code of the character `D`. -/
@[reducible] def KEY_D : Int := 68
/-- Key code of the character `q`. -/
@[reducible] def KEY_q : Int := 113
/-- Key code of the character `Q`. -/
@[reducible] def KEY_Q : Int := 81
/-- Key code of the character `e`. -/
@[reducible] def KEY_e : Int := 101
/-- Key code of the character `E`. -/
@[reducible] def KEY_E : Int := 69
/-- Key code of the character `f`. -/
@[reducible] def KEY_f : Int := 102
/-- Key code of the character `F`. -/
@[reducible] def KEY_F : Int := 70
/-- Key code of the character `g`. -/
@[reducible] def KEY_g : Int := 103
/-- Key code of the character `G`. -/
@[reducible] def KEY_G : Int := 71
/-- Key code `SDLK_LSHIFT` (scancode 225 with bit 30 set). -/
@[reducible] def SDLK_LSHIFT : Int := 1073742049
/-- Key code `SDLK_RSHIFT` (scancode 229 with bit 30 set). -/
@[reducible] def SDLK_RSHIFT : Int := 1073742053
/-- Key code `SDLK_UP` (scancode 82 with bit 30 set). -/
@[reducible] def SDLK_UP : Int := 1073741906
/-- Key code `SDLK_DOWN` (scancode 81 with bit 30 set). -/
@[reducible] def SDLK_DOWN : Int := 1073741905
/-- Key code `SDLK_LEFT` (scancode 80 with bit 30 set). -/
@[reducible] def SDLK_LEFT : Int := 1073741904
/-- Key code `SDLK_RIGHT` (scancode 79 with bit 30 set). -/
@[reducible] def SDLK_RIGHT : Int := 1073741903
/-- Key code `SDLK_ESCAPE` (the character 27). -/
@[reducible] def SDLK_ESCAPE : Int := 27

/-! ## The emulated controller: decay pass -/

/-- The lambda `changeDownToHeld`: a previous `DOWN` becomes `HELD`. -/
def changeDownToHeld (state : ButtonState) : ButtonState :=
  if state = ButtonState.DOWN then ButtonState.HELD else state

/-- The lambda `changeUpToNotPressed`: a previous `UP` becomes `NOT_PRESSED`. -/
def changeUpToNotPressed (state : ButtonState) : ButtonState :=
  if state = ButtonState.UP then ButtonState.NOT_PRESSED else state

/-- The first block of calls: `changeDownToHeld` on every tracked button. -/
def downToHeldPass (ec : EmulatedGameController) : EmulatedGameController :=
  { state :=
      { ec.state with
        a := changeDownToHeld ec.state.a
        b := changeDownToHeld ec.state.b
        x := changeDownToHeld ec.state.x
        y := changeDownToHeld ec.state.y
        leftShoulder := changeDownToHeld ec.state.leftShoulder
        rightShoulder := changeDownToHeld ec.state.rightShoulder
        leftStickButton := changeDownToHeld ec.state.leftStickButton
        rightStickButton := changeDownToHeld ec.state.rightStickButton
        padUp := changeDownToHeld ec.state.padUp
        padDown := changeDownToHeld ec.state.padDown
        padLeft := changeDownToHeld ec.state.padLeft
        padRight := changeDownToHeld ec.state.padRight
        start := changeDownToHeld ec.state.start
        back := changeDownToHeld ec.state.back
        guide := changeDownToHeld ec.state.guide }
    leftStickUp := changeDownToHeld ec.leftStickUp
    leftStickDown := changeDownToHeld ec.leftStickDown
    leftStickLeft := changeDownToHeld ec.leftStickLeft
    leftStickRight := changeDownToHeld ec.leftStickRight
    shiftPressed := changeDownToHeld ec.shiftPressed
    rightStickUp := changeDownToHeld ec.rightStickUp
    rightStickDown := changeDownToHeld ec.rightStickDown
    rightStickLeft := changeDownToHeld ec.rightStickLeft
    rightStickRight := changeDownToHeld ec.rightStickRight }

/-- The second block of calls: `changeUpToNotPressed` on every tracked button. -/
def upToNotPressedPass (ec : EmulatedGameController) : EmulatedGameController :=
  { state :=
      { ec.state with
        a := changeUpToNotPressed ec.state.a
        b := changeUpToNotPressed ec.state.b
        x := changeUpToNotPressed ec.state.x
        y := changeUpToNotPressed ec.state.y
        leftShoulder := changeUpToNotPressed ec.state.leftShoulder
        rightShoulder := changeUpToNotPressed ec.state.rightShoulder
        leftStickButton := changeUpToNotPressed ec.state.leftStickButton
        rightStickButton := changeUpToNotPressed ec.state.rightStickButton
        padUp := changeUpToNotPressed ec.state.padUp
        padDown := changeUpToNotPressed ec.state.padDown
        padLeft := changeUpToNotPressed ec.state.padLeft
        padRight := changeUpToNotPressed ec.state.padRight
        start := changeUpToNotPressed ec.state.start
        back := changeUpToNotPressed ec.state.back
        guide := changeUpToNotPressed ec.state.guide }
    leftStickUp := changeUpToNotPressed ec.leftStickUp
    leftStickDown := changeUpToNotPressed ec.leftStickDown
    leftStickLeft := changeUpToNotPressed ec.leftStickLeft
    leftStickRight := changeUpToNotPressed ec.leftStickRight
    shiftPressed := changeUpToNotPressed ec.shiftPressed
    rightStickUp := changeUpToNotPressed ec.rightStickUp
    rightStickDown := changeUpToNotPressed ec.rightStickDown
    rightStickLeft := changeUpToNotPressed ec.rightStickLeft
    rightStickRight := changeUpToNotPressed ec.rightStickRight }

/-! ## The emulated controller: event fold -/

/-- The inner `switch (event.key.keysym.sym)` of the `SDL_KEYDOWN` case. -/
def handleKeyDown (ec : EmulatedGameController) (sym : Int) : EmulatedGameController :=
  if sym = KEY_w ∨ sym = KEY_W then { ec with leftStickUp := ButtonState.DOWN }
  else if sym = KEY_s ∨ sym = KEY_S then { ec with leftStickDown := ButtonState.DOWN }
  else if sym = KEY_a ∨ sym = KEY_A then { ec with leftStickLeft := ButtonState.DOWN }
  else if sym = KEY_d ∨ sym = KEY_D then { ec with leftStickRight := ButtonState.DOWN }
  else if sym = SDLK_LSHIFT ∨ sym = SDLK_RSHIFT then { ec with shiftPressed := ButtonState.DOWN }
  else if sym = SDLK_UP then { ec with rightStickUp := ButtonState.DOWN }
  else if sym = SDLK_DOWN then { ec with rightStickDown := ButtonState.DOWN }
  else if sym = SDLK_LEFT then { ec with rightStickLeft := ButtonState.DOWN }
  else if sym = SDLK_RIGHT then { ec with rightStickRight := ButtonState.DOWN }
  else if sym = KEY_q ∨ sym = KEY_Q then
    { ec with state := { ec.state with leftShoulder := ButtonState.DOWN } }
  else if sym = KEY_e ∨ sym = KEY_E then
    { ec with state := { ec.state with rightShoulder := ButtonState.DOWN } }
  else if sym = KEY_f ∨ sym = KEY_F then
    { ec with state := { ec.state with y := ButtonState.DOWN } }
  else if sym = KEY_g ∨ sym = KEY_G then
    { ec with state := { ec.state with x := ButtonState.DOWN } }
  else if sym = SDLK_ESCAPE then
    { ec with state := { ec.state with back := ButtonState.DOWN } }
  else ec

/-- The inner `switch (event.key.keysym.sym)` of the `SDL_KEYUP` case. -/
def handleKeyUp (ec : EmulatedGameController) (sym : Int) : EmulatedGameController :=
  if sym = KEY_w ∨ sym = KEY_W then { ec with leftStickUp := ButtonState.UP }
  else if sym = KEY_a ∨ sym = KEY_A then { ec with leftStickLeft := ButtonState.UP }
  else if sym = KEY_s ∨ sym = KEY_S then { ec with leftStickDown := ButtonState.UP }
  else if sym = KEY_d ∨ sym = KEY_D then { ec with leftStickRight := ButtonState.UP }
  else if sym = SDLK_LSHIFT ∨ sym = SDLK_RSHIFT then { ec with shiftPressed := ButtonState.UP }
  else if sym = SDLK_UP then { ec with rightStickUp := ButtonState.UP }
  else if sym = SDLK_DOWN then { ec with rightStickDown := ButtonState.UP }
  else if sym = SDLK_LEFT then { ec with rightStickLeft := ButtonState.UP }
  else if sym = SDLK_RIGHT then { ec with rightStickRight := ButtonState.UP }
  else if sym = KEY_q ∨ sym = KEY_Q then
    { ec with state := { ec.state with leftShoulder := ButtonState.UP } }
  else if sym = KEY_e ∨ sym = KEY_E then
    { ec with state := { ec.state with rightShoulder := ButtonState.UP } }
  else if sym = KEY_f ∨ sym = KEY_F then
    { ec with state := { ec.state with y := ButtonState.UP } }
  else if sym = KEY_g ∨ sym = KEY_G then
    { ec with state := { ec.state with x := ButtonState.UP } }
  else if sym = SDLK_ESCAPE then
    { ec with state := { ec.state with back := ButtonState.UP } }
  else ec

/-- The body of the loop over the events: `switch (event.type)`. -/
def handleEvent (ec : EmulatedGameController) (event : SDL_Event) : EmulatedGameController :=
  if event.type = SDL_KEYDOWN then handleKeyDown ec event.sym
  else if event.type = SDL_KEYUP then handleKeyUp ec event.sym
  else ec

/-- The loop `for (const SDL_Event& event : events)`. -/
def foldEvents (ec : EmulatedGameController) (events : List SDL_Event) :
    EmulatedGameController :=
  events.foldl handleEvent ec

/-! ## Vector helpers of the sfz math library -/

/-- Component-wise scaling `v * s` of a `vec2`. -/
def Vec2.scale (v : Vec2) (s : ℝ) : Vec2 := ⟨v.x * s, v.y * s⟩

/-- Component-wise division `v / s` of a `vec2`. -/
noncomputable def Vec2.divide (v : Vec2) (s : ℝ) : Vec2 := ⟨v.x / s, v.y / s⟩

/-- The dot product of two `vec2`. -/
def Vec2.dot (v w : Vec2) : ℝ := v.x * w.x + v.y * w.y

/-- Modelled from the spec: `sfz::length` on `vec2`, the Euclidean length of the
vector (the sfz headers are not part of the repository). -/
noncomputable def Vec2.length (v : Vec2) : ℝ := Real.sqrt (Vec2.dot v v)

/-- Modelled from the spec: `sfz::safeNormalize` on `vec2` (the sfz headers are
not part of the repository): a vector of length zero is returned unchanged,
any other vector is divided by its length. -/
noncomputable def safeNormalize (v : Vec2) : Vec2 :=
  if Vec2.length v = 0 then v else Vec2.divide v (Vec2.length v)

/-- Vector sum of two `vec3`. -/
def Vec3.add (v w : Vec3) : Vec3 := ⟨v.x + w.x, v.y + w.y, v.z + w.z⟩

/-- Vector difference of two `vec3`. -/
def Vec3.sub (v w : Vec3) : Vec3 := ⟨v.x - w.x, v.y - w.y, v.z - w.z⟩

/-- Component-wise scaling `v * s` (and `s * v`) of a `vec3`. -/
def Vec3.scale (v : Vec3) (s : ℝ) : Vec3 := ⟨v.x * s, v.y * s, v.z * s⟩

/-- Component-wise division `v / s` of a `vec3`. -/
noncomputable def Vec3.divide (v : Vec3) (s : ℝ) : Vec3 := ⟨v.x / s, v.y / s, v.z / s⟩

/-- The dot product of two `vec3`. -/
def Vec3.dot (v w : Vec3) : ℝ := v.x * w.x + v.y * w.y + v.z * w.z

/-- The cross product of two `vec3`. -/
def Vec3.cross (v w : Vec3) : Vec3 :=
  ⟨v.y * w.z - v.z * w.y, v.z * w.x - v.x * w.z, v.x * w.y - v.y * w.x⟩

/-- Modelled from the spec: `sfz::length` on `vec3`, the Euclidean length. -/
noncomputable def Vec3.length (v : Vec3) : ℝ := Real.sqrt (Vec3.dot v v)

/-- Modelled from the spec: `sfz::normalize` on `vec3`, the vector divided by
its length (over the reals a division by zero yields zero). -/
noncomputable def normalize (v : Vec3) : Vec3 := Vec3.divide v (Vec3.length v)

/-- The matrix-vector product `m * v`. -/
def Mat3.mulVec (m : Mat3) (v : Vec3) : Vec3 :=
  ⟨Vec3.dot m.r0 v, Vec3.dot m.r1 v, Vec3.dot m.r2 v⟩

/-- The matrix product `m * n`. -/
def Mat3.mul (m n : Mat3) : Mat3 :=
  let c0 : Vec3 := ⟨n.r0.x, n.r1.x, n.r2.x⟩
  let c1 : Vec3 := ⟨n.r0.y, n.r1.y, n.r2.y⟩
  let c2 : Vec3 := ⟨n.r0.z, n.r1.z, n.r2.z⟩
  { r0 := ⟨Vec3.dot m.r0 c0, Vec3.dot m.r0 c1, Vec3.dot m.r0 c2⟩
    r1 := ⟨Vec3.dot m.r1 c0, Vec3.dot m.r1 c1, Vec3.dot m.r1 c2⟩
    r2 := ⟨Vec3.dot m.r2 c0, Vec3.dot m.r2 c1, Vec3.dot m.r2 c2⟩ }

/-- Modelled from the spec: `mat3::rotation3(axis, angleRad)` of the sfz library
(not part of the repository), the rotation by `angleRad` radians about the
normalised `axis`, as the usual axis-angle matrix. -/
noncomputable def rotation3 (axis : Vec3) (angleRad : ℝ) : Mat3 :=
  let r := normalize axis
  let c := Real.cos angleRad
  let s := Real.sin angleRad
  let cm1 := 1 - c
  { r0 := ⟨c + cm1 * r.x * r.x, cm1 * r.x * r.y - r.z * s, cm1 * r.x * r.z + r.y * s⟩
    r1 := ⟨cm1 * r.x * r.y + r.z * s, c + cm1 * r.y * r.y, cm1 * r.y * r.z - r.x * s⟩
    r2 := ⟨cm1 * r.x * r.z - r.y * s, cm1 * r.y * r.z + r.x * s, c + cm1 * r.z * r.z⟩ }

/-! ## The emulated controller: stick synthesis and the whole update -/

/-- The blocks `// Set left stick` and `// Set right stick`: both stick vectors
are rebuilt from the directional sub-states and the shift modifier. -/
noncomputable def setSticks (ec : EmulatedGameController) : EmulatedGameController :=
  -- Set left stick
  let leftStick : Vec2 := ⟨0, 0⟩
  let leftStick : Vec2 :=
    if ec.leftStickUp ≠ ButtonState.NOT_PRESSED then { leftStick with y := 1 }
    else if ec.leftStickDown ≠ ButtonState.NOT_PRESSED then { leftStick with y := -1 }
    else leftStick
  let leftStick : Vec2 :=
    if ec.leftStickLeft ≠ ButtonState.NOT_PRESSED then { leftStick with x := -1 }
    else if ec.leftStickRight ≠ ButtonState.NOT_PRESSED then { leftStick with x := 1 }
    else leftStick
  let leftStick := safeNormalize leftStick
  let leftStick :=
    if ec.shiftPressed ≠ ButtonState.NOT_PRESSED then Vec2.scale leftStick 0.5 else leftStick
  let ec : EmulatedGameController := { ec with state := { ec.state with leftStick := leftStick } }
  -- Set right stick
  let rightStick : Vec2 := ⟨0, 0⟩
  let rightStick : Vec2 :=
    if ec.rightStickUp ≠ ButtonState.NOT_PRESSED then { rightStick with y := 1 }
    else if ec.rightStickDown ≠ ButtonState.NOT_PRESSED then { rightStick with y := -1 }
    else rightStick
  let rightStick : Vec2 :=
    if ec.rightStickLeft ≠ ButtonState.NOT_PRESSED then { rightStick with x := -1 }
    else if ec.rightStickRight ≠ ButtonState.NOT_PRESSED then { rightStick with x := 1 }
    else rightStick
  let rightStick := safeNormalize rightStick
  let rightStick :=
    if ec.shiftPressed ≠ ButtonState.NOT_PRESSED then Vec2.scale rightStick 0.5 else rightStick
  { ec with state := { ec.state with rightStick := rightStick } }

/-- The method `TestbedUpdateable::updateEmulatedController`, on the emulated
controller it mutates: decay pass, event fold, stick synthesis. -/
noncomputable def updateEmulatedController (ec : EmulatedGameController)
    (events : List SDL_Event) : EmulatedGameController :=
  setSticks (foldEvents (upToNotPressedPass (downToHeldPass ec)) events)

/-! ## The updateable: input processing and the camera tick -/

/-- The camera `ph::CameraData`. -/
structure CameraData where
  pos : Vec3
  dir : Vec3
  up : Vec3
  near : ℝ
  far : ℝ
  vertFovDeg : ℝ

/-- The directive an update step returns (`ph::UpdateOp`), with the two values
the program produces. -/
inductive UpdateOp where
  | NO_OP
  | QUIT
  deriving DecidableEq, Repr

/-- The part of `ph::UpdateInfo` the program reads. -/
structure UpdateInfo where
  tickTimeSeconds : ℝ

/-- The part of `ph::UserInput` the program reads: the events of the tick and
the connected controllers by index (`controllers.get(i)` is `none` for a null
pointer, otherwise the state `controller->state()`). -/
structure UserInput where
  events : List SDL_Event
  controllers : Nat → Option GameControllerState

/-- The members of `TestbedUpdateable` that input processing and the tick read
or write: the camera, the unified controller state and the emulated
controller. -/
structure TestbedUpdateable where
  mCam : CameraData
  mCtrl : GameControllerState
  mEmulatedController : EmulatedGameController

/-- The method `TestbedUpdateable::processInput`: the returned directive and the
object after the call. -/
noncomputable def processInput (self : TestbedUpdateable) (updateInfo : UpdateInfo)
    (input : UserInput) : UpdateOp × TestbedUpdateable :=
  let _ := updateInfo
  -- Update gamecontroller
  let self : TestbedUpdateable :=
    { self with mEmulatedController := updateEmulatedController self.mEmulatedController input.events }
  let controllerIndex : Nat := 0
  let controller := input.controllers controllerIndex
  let self : TestbedUpdateable :=
    { self with mCtrl := match controller with
                         | some st => st
                         | none => self.mEmulatedController.state }
  (UpdateOp.NO_OP, self)

/-- The method `TestbedUpdateable::setDir`, on the camera it mutates (the debug
assertion at its end has no effect on the state).  The `float` members are real
numbers here; `setDirF` is the same method in binary32. -/
noncomputable def setDir (cam : CameraData) (direction up : Vec3) : CameraData :=
  let cam : CameraData := { cam with dir := normalize direction }
  { cam with up := normalize (Vec3.sub up (Vec3.scale cam.dir (Vec3.dot up cam.dir))) }

/-- The method `TestbedUpdateable::updateTick`: the returned directive and the
object after the call.  The empty branches of the source (right trigger,
control pad, face buttons) change nothing and are left out. -/
noncomputable def updateTick (self : TestbedUpdateable) (updateInfo : UpdateInfo) :
    UpdateOp × TestbedUpdateable :=
  let delta := updateInfo.tickTimeSeconds
  let currentSpeed : ℝ := 10
  let turningSpeed : ℝ := 0.8 * Real.pi
  let mCtrl := self.mCtrl
  -- Triggers
  let currentSpeed : ℝ :=
    if mCtrl.leftTrigger > mCtrl.triggerDeadzone then currentSpeed + mCtrl.leftTrigger * 25
    else currentSpeed
  -- Analogue Sticks
  let mCam := self.mCam
  let mCam : CameraData :=
    if Vec2.length mCtrl.rightStick > mCtrl.stickDeadzone then
      let right := normalize (Vec3.cross mCam.dir mCam.up)
      let xTurn := rotation3 ⟨0, -1, 0⟩ (mCtrl.rightStick.x * turningSpeed * delta)
      let yTurn := rotation3 right (mCtrl.rightStick.y * turningSpeed * delta)
      setDir mCam (Mat3.mulVec (Mat3.mul yTurn xTurn) mCam.dir)
        (Mat3.mulVec (Mat3.mul yTurn xTurn) mCam.up)
    else mCam
  let mCam : CameraData :=
    if Vec2.length mCtrl.leftStick > mCtrl.stickDeadzone then
      let right := normalize (Vec3.cross mCam.dir mCam.up)
      { mCam with
        pos := Vec3.add mCam.pos
          (Vec3.scale (Vec3.scale
            (Vec3.add (Vec3.scale mCam.dir mCtrl.leftStick.y) (Vec3.scale right mCtrl.leftStick.x))
            currentSpeed) delta) }
    else mCam
  -- Shoulder buttons
  let mCam : CameraData :=
    if mCtrl.leftShoulder = ButtonState.DOWN ∨ mCtrl.leftShoulder = ButtonState.HELD then
      { mCam with pos := Vec3.sub mCam.pos (Vec3.scale (Vec3.scale ⟨0, 1, 0⟩ currentSpeed) delta) }
    else if mCtrl.rightShoulder = ButtonState.DOWN ∨ mCtrl.rightShoulder = ButtonState.HELD then
      { mCam with pos := Vec3.add mCam.pos (Vec3.scale (Vec3.scale ⟨0, 1, 0⟩ currentSpeed) delta) }
    else mCam
  -- Menu buttons
  if mCtrl.back = ButtonState.UP then
    (UpdateOp.QUIT, { self with mCam := mCam })
  else
    (UpdateOp.NO_OP, { self with mCam := setDir mCam mCam.dir ⟨0, 1, 0⟩ })

/-! ## Vocabulary of the statements -/

/-- The fourteen tracked states that have a key binding. -/
inductive BoundControl where
  | leftStickUp
  | leftStickDown
  | leftStickLeft
  | leftStickRight
  | shiftPressed
  | rightStickUp
  | rightStickDown
  | rightStickLeft
  | rightStickRight
  | leftShoulder
  | rightShoulder
  | y
  | x
  | back
  deriving DecidableEq, Repr

/-- The current value of a key-bound tracked state in the emulator. -/
def BoundControl.read (c : BoundControl) (ec : EmulatedGameController) : ButtonState :=
  match c with
  | .leftStickUp => ec.leftStickUp
  | .leftStickDown => ec.leftStickDown
  | .leftStickLeft => ec.leftStickLeft
  | .leftStickRight => ec.leftStickRight
  | .shiftPressed => ec.shiftPressed
  | .rightStickUp => ec.rightStickUp
  | .rightStickDown => ec.rightStickDown
  | .rightStickLeft => ec.rightStickLeft
  | .rightStickRight => ec.rightStickRight
  | .leftShoulder => ec.state.leftShoulder
  | .rightShoulder => ec.state.rightShoulder
  | .y => ec.state.y
  | .x => ec.state.x
  | .back => ec.state.back

/-- The binding table: the key codes that drive a tracked state. -/
def BoundControl.keys (c : BoundControl) : List Int :=
  match c with
  | .leftStickUp => [KEY_w, KEY_W]
  | .leftStickDown => [KEY_s, KEY_S]
  | .leftStickLeft => [KEY_a, KEY_A]
  | .leftStickRight => [KEY_d, KEY_D]
  | .shiftPressed => [SDLK_LSHIFT, SDLK_RSHIFT]
  | .rightStickUp => [SDLK_UP]
  | .rightStickDown => [SDLK_DOWN]
  | .rightStickLeft => [SDLK_LEFT]
  | .rightStickRight => [SDLK_RIGHT]
  | .leftShoulder => [KEY_q, KEY_Q]
  | .rightShoulder => [KEY_e, KEY_E]
  | .y => [KEY_f, KEY_F]
  | .x => [KEY_g, KEY_G]
  | .back => [SDLK_ESCAPE]

/-- The event is a key-down of one of the keys of `c`. -/
def isKeyDownFor (c : BoundControl) (e : SDL_Event) : Bool :=
  decide (e.type = SDL_KEYDOWN ∧ e.sym ∈ c.keys)

/-- The event is a key-up of one of the keys of `c`. -/
def isKeyUpFor (c : BoundControl) (e : SDL_Event) : Bool :=
  decide (e.type = SDL_KEYUP ∧ e.sym ∈ c.keys)

/-- The event concerns `c`: it is a key-down or a key-up of one of its keys. -/
def concerns (c : BoundControl) (e : SDL_Event) : Bool :=
  isKeyDownFor c e || isKeyUpFor c e

/-- The last event of the list that concerns `c`, if there is one. -/
def lastEventFor (c : BoundControl) (events : List SDL_Event) : Option SDL_Event :=
  (events.filter (concerns c)).getLast?

/-- The decay of a button value as the specification words it: `DOWN` becomes
`HELD`, `UP` becomes `NOT_PRESSED`, `HELD` and `NOT_PRESSED` stay. -/
def decayed : ButtonState → ButtonState
  | .DOWN => .HELD
  | .UP => .NOT_PRESSED
  | .HELD => .HELD
  | .NOT_PRESSED => .NOT_PRESSED

/-- The emulator after a sequence of ticks: one call of
`updateEmulatedController` per tick, each with that tick's event list. -/
noncomputable def runTicks (ec : EmulatedGameController) (ticks : List (List SDL_Event)) :
    EmulatedGameController :=
  ticks.foldl updateEmulatedController ec

/-- A controller state with every button `NOT_PRESSED` and every analogue value
zero, used for concrete instances. -/
def restState : GameControllerState :=
  { a := .NOT_PRESSED, b := .NOT_PRESSED, x := .NOT_PRESSED, y := .NOT_PRESSED,
    stickDeadzone := 0, triggerDeadzone := 0, leftStick := ⟨0, 0⟩, rightStick := ⟨0, 0⟩,
    leftStickButton := .NOT_PRESSED, rightStickButton := .NOT_PRESSED,
    leftShoulder := .NOT_PRESSED, rightShoulder := .NOT_PRESSED,
    leftTrigger := 0, rightTrigger := 0,
    padUp := .NOT_PRESSED, padDown := .NOT_PRESSED, padLeft := .NOT_PRESSED,
    padRight := .NOT_PRESSED, start := .NOT_PRESSED, back := .NOT_PRESSED,
    guide := .NOT_PRESSED }

/-- An emulator with every tracked state `NOT_PRESSED`, used for concrete
instances. -/
def restController : EmulatedGameController :=
  { state := restState, leftStickUp := .NOT_PRESSED, leftStickDown := .NOT_PRESSED,
    leftStickLeft := .NOT_PRESSED, leftStickRight := .NOT_PRESSED,
    shiftPressed := .NOT_PRESSED, rightStickUp := .NOT_PRESSED,
    rightStickDown := .NOT_PRESSED, rightStickLeft := .NOT_PRESSED,
    rightStickRight := .NOT_PRESSED }

/-- The key-down event of the key code `k`. -/
def keyDown (k : Int) : SDL_Event := ⟨SDL_KEYDOWN, k⟩

/-- The key-up event of the key code `k`. -/
def keyUp (k : Int) : SDL_Event := ⟨SDL_KEYUP, k⟩

/-- The rest emulator with the shift modifier `HELD` (a shift key has been down
for more than one tick), used for concrete instances. -/
def shiftHeld : EmulatedGameController :=
  { restController with shiftPressed := .HELD }

/-- The vertical input of a stick as the specification words it: `+1` when the
up sub-state is active, else `-1` when the down sub-state is active, else `0`. -/
def stickAxisY (up down : ButtonState) : ℝ :=
  if up ≠ ButtonState.NOT_PRESSED then 1
  else if down ≠ ButtonState.NOT_PRESSED then -1
  else 0

/-- The horizontal input of a stick as the specification words it: `-1` when the
left sub-state is active, else `+1` when the right sub-state is active, else
`0`. -/
def stickAxisX (left right : ButtonState) : ℝ :=
  if left ≠ ButtonState.NOT_PRESSED then -1
  else if right ≠ ButtonState.NOT_PRESSED then 1
  else 0

/-- The precision factor as the specification words it: `0.5` when the shift
modifier is active, else `1`. -/
noncomputable def stickFactor (shift : ButtonState) : ℝ :=
  if shift ≠ ButtonState.NOT_PRESSED then 0.5 else 1

/-- The emulator after the decay pass and the event fold of a tick, before the
stick synthesis. -/
def afterFold (ec : EmulatedGameController) (events : List SDL_Event) :
    EmulatedGameController :=
  foldEvents (upToNotPressedPass (downToHeldPass ec)) events

/-- Some directional sub-state of the left stick is active (not `NOT_PRESSED`). -/
def leftStickActive (ec : EmulatedGameController) : Prop :=
  ec.leftStickUp ≠ ButtonState.NOT_PRESSED ∨ ec.leftStickDown ≠ ButtonState.NOT_PRESSED ∨
  ec.leftStickLeft ≠ ButtonState.NOT_PRESSED ∨ ec.leftStickRight ≠ ButtonState.NOT_PRESSED

/-- Some directional sub-state of the right stick is active (not `NOT_PRESSED`). -/
def rightStickActive (ec : EmulatedGameController) : Prop :=
  ec.rightStickUp ≠ ButtonState.NOT_PRESSED ∨ ec.rightStickDown ≠ ButtonState.NOT_PRESSED ∨
  ec.rightStickLeft ≠ ButtonState.NOT_PRESSED ∨ ec.rightStickRight ≠ ButtonState.NOT_PRESSED

instance (ec : EmulatedGameController) : Decidable (leftStickActive ec) := by
  unfold leftStickActive
  infer_instance

instance (ec : EmulatedGameController) : Decidable (rightStickActive ec) := by
  unfold rightStickActive
  infer_instance

/-- The length a synthesised stick vector is claimed to have: `0` without an
active direction, else `0.5` with the shift modifier active and `1` without. -/
noncomputable def claimedLength (active : Prop) [Decidable active]
    (shift : ButtonState) : ℝ :=
  if active then (if shift ≠ ButtonState.NOT_PRESSED then 0.5 else 1) else 0

/-- The eight directional sub-states of the two sticks. -/
inductive StickDirection where
  | leftUp
  | leftDown
  | leftLeft
  | leftRight
  | rightUp
  | rightDown
  | rightLeft
  | rightRight
  deriving DecidableEq, Repr

/-- The tracked state of a direction; its keys are the direction's keys (W, S,
A, D in either case for the left stick, the arrow keys for the right stick). -/
def StickDirection.control : StickDirection → BoundControl
  | .leftUp => .leftStickUp
  | .leftDown => .leftStickDown
  | .leftLeft => .leftStickLeft
  | .leftRight => .leftStickRight
  | .rightUp => .rightStickUp
  | .rightDown => .rightStickDown
  | .rightLeft => .rightStickLeft
  | .rightRight => .rightStickRight

/-- The unit axis vector of a direction. -/
def StickDirection.axis : StickDirection → Vec2
  | .leftUp => ⟨0, 1⟩
  | .leftDown => ⟨0, -1⟩
  | .leftLeft => ⟨-1, 0⟩
  | .leftRight => ⟨1, 0⟩
  | .rightUp => ⟨0, 1⟩
  | .rightDown => ⟨0, -1⟩
  | .rightLeft => ⟨-1, 0⟩
  | .rightRight => ⟨1, 0⟩

/-- The stick vector a direction belongs to. -/
def StickDirection.stick (d : StickDirection) (ec : EmulatedGameController) : Vec2 :=
  match d with
  | .leftUp | .leftDown | .leftLeft | .leftRight => ec.state.leftStick
  | .rightUp | .rightDown | .rightLeft | .rightRight => ec.state.rightStick

/-- The four directional sub-states of the direction's stick and the shift
modifier are all `NOT_PRESSED`. -/
def StickDirection.stickAtRest (d : StickDirection) (ec : EmulatedGameController) : Prop :=
  match d with
  | .leftUp | .leftDown | .leftLeft | .leftRight =>
    ec.leftStickUp = ButtonState.NOT_PRESSED ∧ ec.leftStickDown = ButtonState.NOT_PRESSED ∧
    ec.leftStickLeft = ButtonState.NOT_PRESSED ∧ ec.leftStickRight = ButtonState.NOT_PRESSED ∧
    ec.shiftPressed = ButtonState.NOT_PRESSED
  | .rightUp | .rightDown | .rightLeft | .rightRight =>
    ec.rightStickUp = ButtonState.NOT_PRESSED ∧ ec.rightStickDown = ButtonState.NOT_PRESSED ∧
    ec.rightStickLeft = ButtonState.NOT_PRESSED ∧ ec.rightStickRight = ButtonState.NOT_PRESSED ∧
    ec.shiftPressed = ButtonState.NOT_PRESSED

/-- The binding table: every key code that has a binding (W, S, A, D in either
case, both shift keys, the four arrows, Q, E, F, G in either case, Escape). -/
def bindingTable : List Int :=
  [KEY_w, KEY_W, KEY_s, KEY_S, KEY_a, KEY_A, KEY_d, KEY_D, SDLK_LSHIFT, SDLK_RSHIFT,
   SDLK_UP, SDLK_DOWN, SDLK_LEFT, SDLK_RIGHT, KEY_q, KEY_Q, KEY_e, KEY_E, KEY_f, KEY_F,
   KEY_g, KEY_G, SDLK_ESCAPE]

/-- A known event: a key-down or key-up of a key of the binding table.  Every
other event is unknown. -/
def isKnownEvent (e : SDL_Event) : Bool :=
  decide ((e.type = SDL_KEYDOWN ∨ e.type = SDL_KEYUP) ∧ e.sym ∈ bindingTable)

/-! ## The blocks of `updateTick` -/

/-- The value of the local `currentSpeed` of `updateTick` after the block
`// Triggers`: the base speed, plus the bonus when the left trigger exceeds its
deadzone. -/
noncomputable def currentSpeed (mCtrl : GameControllerState) : ℝ :=
  let currentSpeed : ℝ := 10
  if mCtrl.leftTrigger > mCtrl.triggerDeadzone then currentSpeed + mCtrl.leftTrigger * 25
  else currentSpeed

/-- The local `turningSpeed` of `updateTick`. -/
noncomputable def turningSpeed : ℝ := 0.8 * Real.pi

/-- The local `xTurn` of the right-stick block of `updateTick`. -/
noncomputable def xTurn (mCtrl : GameControllerState) (delta : ℝ) : Mat3 :=
  rotation3 ⟨0, -1, 0⟩ (mCtrl.rightStick.x * turningSpeed * delta)

/-- The local `yTurn` of the right-stick block of `updateTick`, for the camera
the block starts from. -/
noncomputable def yTurn (mCtrl : GameControllerState) (delta : ℝ) (mCam : CameraData) : Mat3 :=
  let right := normalize (Vec3.cross mCam.dir mCam.up)
  rotation3 right (mCtrl.rightStick.y * turningSpeed * delta)

/-- The right-stick block of `updateTick` (first `if` under `// Analogue
Sticks`), on the camera. -/
noncomputable def rightStickStep (mCtrl : GameControllerState) (delta : ℝ)
    (mCam : CameraData) : CameraData :=
  if Vec2.length mCtrl.rightStick > mCtrl.stickDeadzone then
    setDir mCam
      (Mat3.mulVec (Mat3.mul (yTurn mCtrl delta mCam) (xTurn mCtrl delta)) mCam.dir)
      (Mat3.mulVec (Mat3.mul (yTurn mCtrl delta mCam) (xTurn mCtrl delta)) mCam.up)
  else mCam

/-- The left-stick block of `updateTick` (second `if` under `// Analogue
Sticks`), on the camera. -/
noncomputable def leftStickStep (mCtrl : GameControllerState) (delta : ℝ)
    (mCam : CameraData) : CameraData :=
  if Vec2.length mCtrl.leftStick > mCtrl.stickDeadzone then
    let right := normalize (Vec3.cross mCam.dir mCam.up)
    { mCam with
      pos := Vec3.add mCam.pos
        (Vec3.scale (Vec3.scale
          (Vec3.add (Vec3.scale mCam.dir mCtrl.leftStick.y) (Vec3.scale right mCtrl.leftStick.x))
          (currentSpeed mCtrl)) delta) }
  else mCam

/-- The block `// Shoulder buttons` of `updateTick`, on the camera. -/
noncomputable def shoulderStep (mCtrl : GameControllerState) (delta : ℝ)
    (mCam : CameraData) : CameraData :=
  if mCtrl.leftShoulder = ButtonState.DOWN ∨ mCtrl.leftShoulder = ButtonState.HELD then
    { mCam with
      pos := Vec3.sub mCam.pos (Vec3.scale (Vec3.scale ⟨0, 1, 0⟩ (currentSpeed mCtrl)) delta) }
  else if mCtrl.rightShoulder = ButtonState.DOWN ∨ mCtrl.rightShoulder = ButtonState.HELD then
    { mCam with
      pos := Vec3.add mCam.pos (Vec3.scale (Vec3.scale ⟨0, 1, 0⟩ (currentSpeed mCtrl)) delta) }
  else mCam

/-- The camera of `updateTick` when it reaches the block `// Menu buttons`: the
camera as the earlier blocks of the tick computed it. -/
noncomputable def cameraBeforeMenu (self : TestbedUpdateable) (updateInfo : UpdateInfo) :
    CameraData :=
  shoulderStep self.mCtrl updateInfo.tickTimeSeconds
    (leftStickStep self.mCtrl updateInfo.tickTimeSeconds
      (rightStickStep self.mCtrl updateInfo.tickTimeSeconds self.mCam))

/-! ## Vocabulary of the camera statements -/

/-- The world up axis `(0, 1, 0)`. -/
def worldUp : Vec3 := ⟨0, 1, 0⟩

/-- The vector is parallel to the world up axis: its cross product with the axis
is the zero vector. -/
def parallelToWorldUp (d : Vec3) : Prop := Vec3.cross d worldUp = ⟨0, 0, 0⟩

/-- The camera's direction and up are unit length and mutually orthogonal. -/
def orthonormalCamera (cam : CameraData) : Prop :=
  Vec3.length cam.dir = 1 ∧ Vec3.length cam.up = 1 ∧ Vec3.dot cam.dir cam.up = 0

/-- The yaw rotation as the specification words it: about the world up axis
`(0, 1, 0)` by the angle `rightStick.x * 0.8 * pi * delta`. -/
noncomputable def claimedYaw (mCtrl : GameControllerState) (delta : ℝ) : Mat3 :=
  rotation3 worldUp (mCtrl.rightStick.x * (0.8 * Real.pi) * delta)

/-- The re-orthonormalised up vector as the specification words it:
`normalize (u - dot (u, d) * d)`. -/
noncomputable def reorthonormalisedUp (u d : Vec3) : Vec3 :=
  normalize (Vec3.sub u (Vec3.scale d (Vec3.dot u d)))

/-- A camera at the origin that looks along `(0, 0, -1)` with up `(0, 1, 0)`,
used for concrete instances. -/
def forwardCamera : CameraData :=
  { pos := ⟨0, 0, 0⟩, dir := ⟨0, 0, -1⟩, up := ⟨0, 1, 0⟩, near := 1, far := 100,
    vertFovDeg := 75 }

/-- The tracked buttons without a key binding. -/
inductive UnboundButton where
  | a
  | b
  | leftStickButton
  | rightStickButton
  | padUp
  | padDown
  | padLeft
  | padRight
  | start
  | guide
  deriving DecidableEq, Repr

/-- The current value of a button without a key binding in the emulator. -/
def UnboundButton.read (u : UnboundButton) (ec : EmulatedGameController) : ButtonState :=
  match u with
  | .a => ec.state.a
  | .b => ec.state.b
  | .leftStickButton => ec.state.leftStickButton
  | .rightStickButton => ec.state.rightStickButton
  | .padUp => ec.state.padUp
  | .padDown => ec.state.padDown
  | .padLeft => ec.state.padLeft
  | .padRight => ec.state.padRight
  | .start => ec.state.start
  | .guide => ec.state.guide

/-- Every button the decay pass tracks: the fifteen controller buttons and the
nine sub-states of the emulator. -/
def trackedButtons (ec : EmulatedGameController) : List ButtonState :=
  [ec.state.a, ec.state.b, ec.state.x, ec.state.y, ec.state.leftShoulder,
   ec.state.rightShoulder, ec.state.leftStickButton, ec.state.rightStickButton,
   ec.state.padUp, ec.state.padDown, ec.state.padLeft, ec.state.padRight, ec.state.start,
   ec.state.back, ec.state.guide, ec.leftStickUp, ec.leftStickDown, ec.leftStickLeft,
   ec.leftStickRight, ec.shiftPressed, ec.rightStickUp, ec.rightStickDown,
   ec.rightStickLeft, ec.rightStickRight]

/-- An updateable with the given camera and unified controller state and the
rest emulator, used for concrete instances. -/
def testbedWith (cam : CameraData) (ctrl : GameControllerState) : TestbedUpdateable :=
  { mCam := cam, mCtrl := ctrl, mEmulatedController := restController }

/-- The object of a tick with both shoulders released: the unified controller
state with `leftShoulder` and `rightShoulder` set to `NOT_PRESSED`. -/
def releaseShoulders (self : TestbedUpdateable) : TestbedUpdateable :=
  { self with
    mCtrl := { self.mCtrl with
      leftShoulder := ButtonState.NOT_PRESSED, rightShoulder := ButtonState.NOT_PRESSED } }

/-- A tick at rest but for a right stick pushed fully to the right, from the
forward camera: the object, used for concrete instances with the tick time
`0.625` (a yaw angle of `pi / 2`). -/
def turnRightTick : TestbedUpdateable :=
  testbedWith forwardCamera { restState with rightStick := ⟨1, 0⟩ }

/-- The forward camera rolled by a quarter turn: direction `(0, 0, -1)`, up
`(1, 0, 0)`, used for concrete instances. -/
def rolledCamera : CameraData := { forwardCamera with up := ⟨1, 0, 0⟩ }

/-- A camera with up `(0, 1, 0)` and the tilted unit direction `(0, 0.6, -0.8)`,
which is not orthogonal to its up (as for the camera `initialize` sets up), used
for concrete instances. -/
noncomputable def tiltedCamera : CameraData := { forwardCamera with dir := ⟨0, 0.6, -0.8⟩ }

/-- A camera that looks straight up: direction `(0, 1, 0)`, up `(0, 0, 1)`, used
for concrete instances. -/
def verticalCamera : CameraData := { forwardCamera with dir := ⟨0, 1, 0⟩, up := ⟨0, 0, 1⟩ }

/-- The part of the emulator state that has no key binding: the two triggers and
the two deadzones, and the ten buttons without a binding. -/
def unboundPart (ec : EmulatedGameController) : List ℝ × List ButtonState :=
  ([ec.state.leftTrigger, ec.state.rightTrigger, ec.state.triggerDeadzone,
    ec.state.stickDeadzone],
   [ec.state.a, ec.state.b, ec.state.leftStickButton, ec.state.rightStickButton,
    ec.state.padUp, ec.state.padDown, ec.state.padLeft, ec.state.padRight, ec.state.start,
    ec.state.guide])

/-- A user input without a connected controller. -/
def keyboardInput (events : List SDL_Event) : UserInput :=
  { events := events, controllers := fun _ => none }

/-! ## Binary32 arithmetic and the float `setDir`

The definitions above read `float` as a real number.  Near the vertical the
subtraction in `setDir` cancels, and what the code computes then depends on the
rounding of binary32.  This section models that arithmetic (round to nearest,
ties to even, after every operation) and `setDir` over it. -/

/-- A finite binary32 number by its exact value `mant * 2 ^ expo`, kept in the
form with an odd mantissa (and `0 * 2 ^ 0` for zero; the sign of zero is not
kept). -/
structure Bin where
  mant : Int
  expo : Int
  deriving DecidableEq, Repr

/-- A `float` of the code under binary32 arithmetic: a finite number, or `none`
for an infinity or a NaN. -/
abbrev F32 := Option Bin

/-- The form with an odd mantissa of `m * 2 ^ e`: at most `fuel` factors two are
moved from the mantissa to the exponent. -/
def stripTwos : Nat → Int → Int → Bin
  | 0, m, e => ⟨m, e⟩
  | fuel + 1, m, e =>
    if m = 0 then ⟨0, 0⟩
    else if m % 2 = 0 then stripTwos fuel (m / 2) (e + 1)
    else ⟨m, e⟩

/-- The halving loop of `bitLog`: the number of halvings that bring `n` below
two, added to `acc`. -/
def bitLogFrom : Nat → Nat → Nat → Nat
  | 0, _, acc => acc
  | fuel + 1, n, acc => if n < 2 then acc else bitLogFrom fuel (n / 2) (acc + 1)

/-- The integer part of the binary logarithm of `n` (`0` for `n = 0`). -/
def bitLog (n : Nat) : Nat := bitLogFrom n n 0

/-- The integer part of the binary logarithm of the positive rational `n / d`. -/
def floorLog2 (n d : Nat) : Int :=
  let k : Int := (bitLog n : Int) - (bitLog d : Int)
  if 0 ≤ k then (if d * 2 ^ k.toNat ≤ n then k else k - 1)
  else (if d ≤ n * 2 ^ (-k).toNat then k else k - 1)

/-- The integer nearest to `n / d`, ties to the even one. -/
def roundHalfEven (n d : Nat) : Nat :=
  let q := n / d
  let r := n % d
  if 2 * r < d then q
  else if d < 2 * r then q + 1
  else if q % 2 = 0 then q else q + 1

/-- The binary32 number nearest to the rational `n / d` (negated when `neg`),
ties to even: 24 significant bits, exponents from `-126` (below that the spacing
stays `2 ^ -149`), and `none` when the result reaches `2 ^ 128`. -/
def roundRatio (neg : Bool) (n d : Nat) : F32 :=
  if n = 0 then some ⟨0, 0⟩
  else
    let p := max (floorLog2 n d) (-126) - 23
    let m := if 0 ≤ p then roundHalfEven n (d * 2 ^ p.toNat)
             else roundHalfEven (n * 2 ^ (-p).toNat) d
    if 0 ≤ p ∧ 2 ^ 128 ≤ m * 2 ^ p.toNat then none
    else some (stripTwos 24 (if neg then -(m : Int) else m) p)

/-- The binary32 number nearest to the exact value `m * 2 ^ e`. -/
def roundDyadic (m e : Int) : F32 :=
  if 0 ≤ e then roundRatio (decide (m < 0)) (m.natAbs * 2 ^ e.toNat) 1
  else roundRatio (decide (m < 0)) m.natAbs (2 ^ (-e).toNat)

/-- The `float` product `a * b`: the exact product, rounded. -/
def fmul (a b : F32) : F32 :=
  match a, b with
  | some x, some y => roundDyadic (x.mant * y.mant) (x.expo + y.expo)
  | _, _ => none

/-- The `float` sum `a + b`: the exact sum, rounded. -/
def fadd (a b : F32) : F32 :=
  match a, b with
  | some x, some y =>
    let e := min x.expo y.expo
    roundDyadic (x.mant * 2 ^ (x.expo - e).toNat + y.mant * 2 ^ (y.expo - e).toNat) e
  | _, _ => none

/-- The `float` difference `a - b`: the exact difference, rounded. -/
def fsub (a b : F32) : F32 :=
  match a, b with
  | some x, some y =>
    let e := min x.expo y.expo
    roundDyadic (x.mant * 2 ^ (x.expo - e).toNat - y.mant * 2 ^ (y.expo - e).toNat) e
  | _, _ => none

/-- The `float` quotient `a / b`: the exact quotient, rounded; a division by zero
gives an infinity or a NaN. -/
def fdiv (a b : F32) : F32 :=
  match a, b with
  | some x, some y =>
    if y.mant = 0 then none
    else
      let e := x.expo - y.expo
      if 0 ≤ e then
        roundRatio (decide (x.mant < 0) != decide (y.mant < 0))
          (x.mant.natAbs * 2 ^ e.toNat) y.mant.natAbs
      else
        roundRatio (decide (x.mant < 0) != decide (y.mant < 0))
          x.mant.natAbs (y.mant.natAbs * 2 ^ (-e).toNat)
  | _, _ => none

/-- The bit-by-bit loop of the integer square root, from bit `bits - 1` down. -/
def isqrtFrom : Nat → Nat → Nat → Nat
  | 0, _, acc => acc
  | bits + 1, n, acc =>
    isqrtFrom bits n (if (acc + 2 ^ bits) * (acc + 2 ^ bits) ≤ n then acc + 2 ^ bits else acc)

/-- The integer part of the square root of `n`. -/
def isqrt (n : Nat) : Nat := isqrtFrom (bitLog n / 2 + 1) n 0

/-- The `float` square root `std::sqrt`: the binary32 number nearest to the exact
root (ties to even); a NaN for a negative argument. -/
def fsqrt (a : F32) : F32 :=
  match a with
  | some x =>
    if x.mant < 0 then none
    else if x.mant = 0 then some ⟨0, 0⟩
    else
      let l : Int := (bitLog x.mant.natAbs : Int) + x.expo
      let half : Int := if 0 ≤ l then (l.toNat / 2 : Nat) else -(((-l).toNat + 1) / 2 : Nat)
      let p := max half (-126) - 23
      let s := x.expo - 2 * p
      let n := if 0 ≤ s then x.mant.natAbs * 2 ^ s.toNat else x.mant.natAbs
      let d := if 0 ≤ s then 1 else 2 ^ (-s).toNat
      let r := isqrt (n / d)
      let m :=
        if 4 * n < (2 * r + 1) * (2 * r + 1) * d then r
        else if (2 * r + 1) * (2 * r + 1) * d < 4 * n then r + 1
        else if r % 2 = 0 then r else r + 1
      some (stripTwos 24 m p)
  | none => none

/-- The `float` is a finite number above zero. -/
def F32.isPositive (a : F32) : Bool :=
  match a with
  | some x => decide (0 < x.mant)
  | none => false

/-- A three-dimensional vector (`sfz::vec3`) of `float` components. -/
structure Vec3F where
  x : F32
  y : F32
  z : F32
  deriving DecidableEq, Repr

/-- The dot product of two `vec3`, every product and sum rounded. -/
def Vec3F.dot (v w : Vec3F) : F32 :=
  fadd (fadd (fmul v.x w.x) (fmul v.y w.y)) (fmul v.z w.z)

/-- Modelled from the spec: `sfz::length` on `vec3` in `float`, the square root
of the dot product of the vector with itself. -/
def Vec3F.length (v : Vec3F) : F32 := fsqrt (Vec3F.dot v v)

/-- Component-wise division `v / s` of a `vec3` in `float`. -/
def Vec3F.divide (v : Vec3F) (s : F32) : Vec3F := ⟨fdiv v.x s, fdiv v.y s, fdiv v.z s⟩

/-- Component-wise scaling `s * v` of a `vec3` in `float`. -/
def Vec3F.scale (v : Vec3F) (s : F32) : Vec3F := ⟨fmul v.x s, fmul v.y s, fmul v.z s⟩

/-- Vector difference of two `vec3` in `float`. -/
def Vec3F.sub (v w : Vec3F) : Vec3F := ⟨fsub v.x w.x, fsub v.y w.y, fsub v.z w.z⟩

/-- The cross product of two `vec3` in `float`. -/
def Vec3F.cross (v w : Vec3F) : Vec3F :=
  ⟨fsub (fmul v.y w.z) (fmul v.z w.y), fsub (fmul v.z w.x) (fmul v.x w.z),
   fsub (fmul v.x w.y) (fmul v.y w.x)⟩

/-- Modelled from the spec: `sfz::normalize` on `vec3` in `float`, the vector
divided by its length. -/
def normalizeF (v : Vec3F) : Vec3F := Vec3F.divide v (Vec3F.length v)

/-- The camera `ph::CameraData` with `float` members. -/
structure CameraDataF where
  pos : Vec3F
  dir : Vec3F
  up : Vec3F
  near : F32
  far : F32
  vertFovDeg : F32
  deriving DecidableEq, Repr

/-- The method `TestbedUpdateable::setDir` in `float`, on the camera it mutates
(the debug assertion at its end has no effect on the state). -/
def setDirF (cam : CameraDataF) (direction up : Vec3F) : CameraDataF :=
  let cam : CameraDataF := { cam with dir := normalizeF direction }
  { cam with up := normalizeF (Vec3F.sub up (Vec3F.scale cam.dir (Vec3F.dot up cam.dir))) }

/-- The world up axis `vec3(0.0f, 1.0f, 0.0f)`. -/
def worldUpF : Vec3F := ⟨some ⟨0, 0⟩, some ⟨1, 0⟩, some ⟨0, 0⟩⟩

/-- The `float` vector is parallel to the world up axis: its cross product with
the axis is the zero vector. -/
def parallelToWorldUpF (d : Vec3F) : Prop :=
  Vec3F.cross d worldUpF = ⟨some ⟨0, 0⟩, some ⟨0, 0⟩, some ⟨0, 0⟩⟩

instance (d : Vec3F) : Decidable (parallelToWorldUpF d) := by
  unfold parallelToWorldUpF
  infer_instance

/-- A `float` camera that looks almost straight up: direction
`(0, 1, 6151831 * 2 ^ -47)` (the last component is about `4.37e-8`, the
binary32 value `0x333BBD2E`), up `(0, 0, -1)`, used for concrete instances. -/
def nearVerticalCameraF : CameraDataF :=
  { pos := ⟨some ⟨0, 0⟩, some ⟨0, 0⟩, some ⟨0, 0⟩⟩,
    dir := ⟨some ⟨0, 0⟩, some ⟨1, 0⟩, some ⟨6151831, -47⟩⟩,
    up := ⟨some ⟨0, 0⟩, some ⟨0, 0⟩, some ⟨-1, 0⟩⟩,
    near := some ⟨1, 0⟩, far := some ⟨25, 2⟩, vertFovDeg := some ⟨75, 0⟩ }

/-- The camera of `nearVerticalCameraF` with its components read as real numbers,
used for concrete instances. -/
noncomputable def nearVerticalCamera : CameraData :=
  { pos := ⟨0, 0, 0⟩, dir := ⟨0, 1, 6151831 / 2 ^ 47⟩, up := ⟨0, 0, -1⟩, near := 1, far := 100,
    vertFovDeg := 75 }

/-! ## Lemmas on the emulator -/

theorem Vec2.dot_self_nonneg (v : Vec2) : 0 ≤ Vec2.dot v v := by
  unfold Vec2.dot
  nlinarith [mul_self_nonneg v.x, mul_self_nonneg v.y]

theorem Vec2.length_nonneg (v : Vec2) : 0 ≤ Vec2.length v := Real.sqrt_nonneg _

theorem Vec2.length_mul_self (v : Vec2) : Vec2.length v * Vec2.length v = Vec2.dot v v :=
  Real.mul_self_sqrt (Vec2.dot_self_nonneg v)

theorem Vec2.length_eq_zero_iff (v : Vec2) : Vec2.length v = 0 ↔ v.x = 0 ∧ v.y = 0 := by
  unfold Vec2.length
  rw [Real.sqrt_eq_zero (Vec2.dot_self_nonneg v)]
  unfold Vec2.dot
  constructor
  · intro h
    constructor <;> nlinarith [mul_self_nonneg v.x, mul_self_nonneg v.y]
  · rintro ⟨hx, hy⟩
    rw [hx, hy]; ring

theorem Vec2.length_scale (v : Vec2) (s : ℝ) (hs : 0 ≤ s) :
    Vec2.length (Vec2.scale v s) = s * Vec2.length v := by
  unfold Vec2.length
  have : Vec2.dot (Vec2.scale v s) (Vec2.scale v s) = s ^ 2 * Vec2.dot v v := by
    unfold Vec2.dot Vec2.scale
    ring
  rw [this, Real.sqrt_mul (sq_nonneg s), Real.sqrt_sq hs]

theorem Vec2.abs_x_le_length (v : Vec2) : |v.x| ≤ Vec2.length v := by
  apply abs_le_of_sq_le_sq' _ (Vec2.length_nonneg v) |> fun h => abs_le.mpr h
  rw [sq, sq, Vec2.length_mul_self]
  unfold Vec2.dot
  nlinarith [mul_self_nonneg v.y]

theorem Vec2.abs_y_le_length (v : Vec2) : |v.y| ≤ Vec2.length v := by
  apply abs_le_of_sq_le_sq' _ (Vec2.length_nonneg v) |> fun h => abs_le.mpr h
  rw [sq, sq, Vec2.length_mul_self]
  unfold Vec2.dot
  nlinarith [mul_self_nonneg v.x]

theorem length_safeNormalize (v : Vec2) :
    Vec2.length (safeNormalize v) = if Vec2.length v = 0 then 0 else 1 := by
  unfold safeNormalize
  by_cases h : Vec2.length v = 0
  · simp [h]
  · simp only [h, if_false]
    have hL := Vec2.length_mul_self v
    have : Vec2.dot (Vec2.divide v (Vec2.length v)) (Vec2.divide v (Vec2.length v)) = 1 := by
      unfold Vec2.divide
      unfold Vec2.dot at hL ⊢
      field_simp
      linarith
    unfold Vec2.length at this ⊢
    rw [this, Real.sqrt_one]


theorem Vec2.scale_one (v : Vec2) : Vec2.scale v 1 = v := by
  unfold Vec2.scale
  simp

theorem setSticks_leftStick (m : EmulatedGameController) :
    (setSticks m).state.leftStick =
      Vec2.scale
        (safeNormalize ⟨stickAxisX m.leftStickLeft m.leftStickRight,
          stickAxisY m.leftStickUp m.leftStickDown⟩)
        (stickFactor m.shiftPressed) := by
  simp only [setSticks, stickAxisX, stickAxisY, stickFactor]
  split_ifs <;> simp only [Vec2.scale_one]

theorem setSticks_rightStick (m : EmulatedGameController) :
    (setSticks m).state.rightStick =
      Vec2.scale
        (safeNormalize ⟨stickAxisX m.rightStickLeft m.rightStickRight,
          stickAxisY m.rightStickUp m.rightStickDown⟩)
        (stickFactor m.shiftPressed) := by
  simp only [setSticks, stickAxisX, stickAxisY, stickFactor]
  split_ifs <;> simp only [Vec2.scale_one]


theorem read_setSticks (c : BoundControl) (ec : EmulatedGameController) :
    c.read (setSticks ec) = c.read ec := by
  cases c <;> rfl

theorem decay_button (v : ButtonState) :
    changeUpToNotPressed (changeDownToHeld v) = decayed v := by
  cases v <;> rfl

theorem read_decayPasses (c : BoundControl) (ec : EmulatedGameController) :
    c.read (upToNotPressedPass (downToHeldPass ec)) = decayed (c.read ec) := by
  cases c <;> exact decay_button _

theorem apply_ite_eq {α β : Type} (f : α → β) (p : Prop) [Decidable p] (a b : α) (v : β)
    (h1 : p → f a = v) (h2 : f b = v) : f (if p then a else b) = v := by
  by_cases h : p
  · rw [if_pos h]; exact h1 h
  · rw [if_neg h]; exact h2

theorem read_handleKeyDown_other (c : BoundControl) (ec : EmulatedGameController) (k : Int)
    (hk : k ∉ c.keys) : c.read (handleKeyDown ec k) = c.read ec := by
  unfold handleKeyDown
  iterate 14
    (refine apply_ite_eq c.read _ _ _ _ (fun h => ?_) ?_
     · cases c <;> first
        | rfl
        | (exfalso
           simp only [BoundControl.keys, List.mem_cons, List.mem_singleton, List.not_mem_nil,
             or_false, not_or] at hk
           omega))
  rfl

theorem read_handleKeyUp_other (c : BoundControl) (ec : EmulatedGameController) (k : Int)
    (hk : k ∉ c.keys) : c.read (handleKeyUp ec k) = c.read ec := by
  unfold handleKeyUp
  iterate 14
    (refine apply_ite_eq c.read _ _ _ _ (fun h => ?_) ?_
     · cases c <;> first
        | rfl
        | (exfalso
           simp only [BoundControl.keys, List.mem_cons, List.mem_singleton, List.not_mem_nil,
             or_false, not_or] at hk
           omega))
  rfl

theorem read_handleKeyDown_own (c : BoundControl) (ec : EmulatedGameController) (k : Int)
    (hk : k ∈ c.keys) : c.read (handleKeyDown ec k) = ButtonState.DOWN := by
  cases c <;> simp only [BoundControl.keys, List.mem_cons, List.mem_singleton, List.not_mem_nil,
      or_false] at hk <;>
    (first | subst hk | (rcases hk with hk | hk <;> subst hk)) <;> rfl

theorem read_handleKeyUp_own (c : BoundControl) (ec : EmulatedGameController) (k : Int)
    (hk : k ∈ c.keys) : c.read (handleKeyUp ec k) = ButtonState.UP := by
  cases c <;> simp only [BoundControl.keys, List.mem_cons, List.mem_singleton, List.not_mem_nil,
      or_false] at hk <;>
    (first | subst hk | (rcases hk with hk | hk <;> subst hk)) <;> rfl

theorem read_handleEvent (c : BoundControl) (ec : EmulatedGameController) (e : SDL_Event) :
    c.read (handleEvent ec e) =
      if isKeyDownFor c e then ButtonState.DOWN
      else if isKeyUpFor c e then ButtonState.UP
      else c.read ec := by
  rcases e with ⟨t, k⟩
  unfold handleEvent isKeyDownFor isKeyUpFor
  by_cases hd : t = SDL_KEYDOWN
  · subst hd
    by_cases hk : k ∈ c.keys
    · simp [hk, read_handleKeyDown_own]
    · simp [hk, read_handleKeyDown_other]
  · by_cases hu : t = SDL_KEYUP
    · subst hu
      by_cases hk : k ∈ c.keys
      · simp [hk, read_handleKeyUp_own]
      · simp [hk, read_handleKeyUp_other]
    · simp [hd, hu]

theorem read_foldEvents (c : BoundControl) (ec : EmulatedGameController)
    (events : List SDL_Event) :
    c.read (foldEvents ec events) =
      match lastEventFor c events with
      | some e => if e.type = SDL_KEYDOWN then ButtonState.DOWN else ButtonState.UP
      | none => c.read ec := by
  induction events using List.reverseRecOn with
  | nil => rfl
  | append_singleton l e ih =>
    unfold foldEvents lastEventFor at *
    rw [List.foldl_append, List.filter_append]
    simp only [List.foldl_cons, List.foldl_nil, read_handleEvent]
    by_cases hc : concerns c e = true
    · have hf : List.filter (concerns c) [e] = [e] := by simp [hc]
      rw [hf, List.getLast?_concat]
      unfold concerns isKeyDownFor isKeyUpFor at hc
      unfold isKeyDownFor isKeyUpFor
      by_cases hd : e.type = SDL_KEYDOWN
      · simp_all
      · simp_all
    · have hf : List.filter (concerns c) [e] = [] := by simp [hc]
      rw [hf, List.append_nil, ← ih]
      unfold concerns at hc
      simp only [Bool.or_eq_true, not_or] at hc
      simp [hc.1, hc.2]

theorem read_update (c : BoundControl) (ec : EmulatedGameController)
    (events : List SDL_Event) :
    c.read (updateEmulatedController ec events) =
      match lastEventFor c events with
      | some e => if e.type = SDL_KEYDOWN then ButtonState.DOWN else ButtonState.UP
      | none => decayed (c.read ec) := by
  unfold updateEmulatedController
  rw [read_setSticks, read_foldEvents, read_decayPasses]

theorem lastEventFor_concerns (c : BoundControl) (events : List SDL_Event) (e : SDL_Event)
    (h : lastEventFor c events = some e) : e ∈ events ∧ concerns c e = true := by
  unfold lastEventFor at h
  have hm : e ∈ events.filter (concerns c) := List.mem_of_getLast?_eq_some h
  exact List.mem_filter.mp hm

theorem concerns_type (c : BoundControl) (e : SDL_Event) (h : concerns c e = true) :
    e.type = SDL_KEYDOWN ∨ e.type = SDL_KEYUP := by
  unfold concerns isKeyDownFor isKeyUpFor at h
  simp only [Bool.or_eq_true, decide_eq_true_eq] at h
  rcases h with h | h
  · exact Or.inl h.1
  · exact Or.inr h.1

theorem lastEventFor_of_filter_nil (c : BoundControl) (events : List SDL_Event)
    (h : events.filter (concerns c) = []) : lastEventFor c events = none := by
  unfold lastEventFor
  rw [h]
  rfl

theorem lastEventFor_of_filter_singleton (c : BoundControl) (events : List SDL_Event)
    (e : SDL_Event) (h : events.filter (concerns c) = [e]) :
    lastEventFor c events = some e := by
  unfold lastEventFor
  rw [h]
  rfl

theorem read_update_quiet (c : BoundControl) (ec : EmulatedGameController)
    (events : List SDL_Event) (h : events.filter (concerns c) = []) :
    c.read (updateEmulatedController ec events) = decayed (c.read ec) := by
  rw [read_update, lastEventFor_of_filter_nil c events h]

theorem read_update_no_down (c : BoundControl) (ec : EmulatedGameController)
    (events : List SDL_Event) (h : ∀ e ∈ events, isKeyDownFor c e = false) :
    c.read (updateEmulatedController ec events) =
      if events.filter (concerns c) = [] then decayed (c.read ec) else ButtonState.UP := by
  rw [read_update]
  cases hl : lastEventFor c events with
  | none =>
    have : events.filter (concerns c) = [] := by
      unfold lastEventFor at hl
      exact List.getLast?_eq_none_iff.mp hl
    simp [this]
  | some e =>
    obtain ⟨hmem, hcon⟩ := lastEventFor_concerns c events e hl
    have hne : events.filter (concerns c) ≠ [] := by
      intro h0
      rw [lastEventFor_of_filter_nil c events h0] at hl
      exact Option.noConfusion hl
    have hnd := h e hmem
    have hty : e.type ≠ SDL_KEYDOWN := by
      intro ht
      unfold concerns isKeyDownFor isKeyUpFor at hcon
      unfold isKeyDownFor at hnd
      simp only [Bool.or_eq_true, decide_eq_true_eq, decide_eq_false_iff_not] at hcon hnd
      rcases hcon with h1 | h1
      · exact hnd h1
      · rw [ht] at h1
        exact absurd h1.1 (by decide)
    simp [hne, hty]

theorem runTicks_cons (ec : EmulatedGameController) (evs : List SDL_Event)
    (ticks : List (List SDL_Event)) :
    runTicks ec (evs :: ticks) = runTicks (updateEmulatedController ec evs) ticks := rfl

theorem runTicks_concat (ec : EmulatedGameController) (evs : List SDL_Event)
    (ticks : List (List SDL_Event)) :
    runTicks ec (ticks ++ [evs]) = updateEmulatedController (runTicks ec ticks) evs := by
  unfold runTicks
  rw [List.foldl_append]
  rfl

theorem read_runTicks_quiet_held (c : BoundControl) (ticks : List (List SDL_Event))
    (hquiet : ∀ evs ∈ ticks, evs.filter (concerns c) = []) (hne : ticks ≠ []) :
    ∀ ec : EmulatedGameController,
      c.read ec = ButtonState.DOWN ∨ c.read ec = ButtonState.HELD →
      c.read (runTicks ec ticks) = ButtonState.HELD := by
  induction ticks with
  | nil => exact absurd rfl hne
  | cons evs rest ih =>
    intro ec hec
    have h1 : c.read (updateEmulatedController ec evs) = ButtonState.HELD := by
      rw [read_update_quiet c ec evs (hquiet evs (List.mem_cons_self _ _))]
      rcases hec with h | h <;> rw [h] <;> rfl
    rw [runTicks_cons]
    by_cases hr : rest = []
    · subst hr
      exact h1
    · exact ih (fun evs' hm => hquiet evs' (List.mem_cons_of_mem _ hm)) hr _ (Or.inr h1)

theorem read_runTicks_no_down (c : BoundControl) (ticks : List (List SDL_Event))
    (hnd : ∀ t ∈ ticks, ∀ e ∈ t, isKeyDownFor c e = false) :
    ∀ ec : EmulatedGameController,
      c.read ec = ButtonState.UP ∨ c.read ec = ButtonState.NOT_PRESSED →
      c.read (runTicks ec ticks) = ButtonState.UP ∨
        c.read (runTicks ec ticks) = ButtonState.NOT_PRESSED := by
  induction ticks with
  | nil => intro ec hec; exact hec
  | cons evs rest ih =>
    intro ec hec
    rw [runTicks_cons]
    apply ih (fun t ht => hnd t (List.mem_cons_of_mem _ ht))
    rw [read_update_no_down c ec evs (hnd evs (List.mem_cons_self _ _))]
    split_ifs
    · right
      rcases hec with h | h <;> rw [h] <;> rfl
    · left
      rfl

theorem stickFactor_nonneg (shift : ButtonState) : 0 ≤ stickFactor shift := by
  unfold stickFactor
  split_ifs <;> norm_num

theorem stickFactor_le_one (shift : ButtonState) : stickFactor shift ≤ 1 := by
  unfold stickFactor
  split_ifs <;> norm_num

theorem stickAxis_eq_zero_iff (up down left right : ButtonState) :
    (stickAxisX left right = 0 ∧ stickAxisY up down = 0) ↔
      ¬(up ≠ ButtonState.NOT_PRESSED ∨ down ≠ ButtonState.NOT_PRESSED ∨
        left ≠ ButtonState.NOT_PRESSED ∨ right ≠ ButtonState.NOT_PRESSED) := by
  unfold stickAxisX stickAxisY
  split_ifs <;> simp_all

theorem synthesised_stick_bounds (up down left right shift : ButtonState) (v : Vec2)
    (hv : v = Vec2.scale (safeNormalize ⟨stickAxisX left right, stickAxisY up down⟩)
      (stickFactor shift)) :
    (-1 ≤ v.x ∧ v.x ≤ 1 ∧ -1 ≤ v.y ∧ v.y ≤ 1) ∧
    Vec2.length v =
      claimedLength (up ≠ ButtonState.NOT_PRESSED ∨ down ≠ ButtonState.NOT_PRESSED ∨
        left ≠ ButtonState.NOT_PRESSED ∨ right ≠ ButtonState.NOT_PRESSED) shift ∧
    (v = ⟨0, 0⟩ ↔ ¬(up ≠ ButtonState.NOT_PRESSED ∨ down ≠ ButtonState.NOT_PRESSED ∨
        left ≠ ButtonState.NOT_PRESSED ∨ right ≠ ButtonState.NOT_PRESSED)) := by
  have hlen : Vec2.length v =
      claimedLength (up ≠ ButtonState.NOT_PRESSED ∨ down ≠ ButtonState.NOT_PRESSED ∨
        left ≠ ButtonState.NOT_PRESSED ∨ right ≠ ButtonState.NOT_PRESSED) shift := by
    rw [hv, Vec2.length_scale _ _ (stickFactor_nonneg shift), length_safeNormalize]
    have hz := stickAxis_eq_zero_iff up down left right
    unfold claimedLength
    by_cases ha : (up ≠ ButtonState.NOT_PRESSED ∨ down ≠ ButtonState.NOT_PRESSED ∨
        left ≠ ButtonState.NOT_PRESSED ∨ right ≠ ButtonState.NOT_PRESSED)
    · have hn : ¬ Vec2.length ⟨stickAxisX left right, stickAxisY up down⟩ = 0 :=
        fun h => (hz.mp ((Vec2.length_eq_zero_iff _).mp h)) ha
      rw [if_neg hn, if_pos ha]
      unfold stickFactor
      simp
    · have hn : Vec2.length ⟨stickAxisX left right, stickAxisY up down⟩ = 0 :=
        (Vec2.length_eq_zero_iff _).mpr (hz.mpr ha)
      rw [if_pos hn, if_neg ha]
      simp
  have hle : Vec2.length v ≤ 1 := by
    rw [hlen]
    unfold claimedLength
    split_ifs <;> norm_num
  have hx := abs_le.mp (le_trans (Vec2.abs_x_le_length v) hle)
  have hy := abs_le.mp (le_trans (Vec2.abs_y_le_length v) hle)
  refine ⟨⟨hx.1, hx.2, hy.1, hy.2⟩, hlen, ?_⟩
  have hzero : v = ⟨0, 0⟩ ↔ Vec2.length v = 0 := by
    rw [Vec2.length_eq_zero_iff]
    constructor
    · intro h; rw [h]; exact ⟨rfl, rfl⟩
    · rintro ⟨h1, h2⟩; exact Vec2.ext h1 h2
  rw [hzero, hlen]
  unfold claimedLength
  split_ifs with h1 h2 <;> simp [h1]
  norm_num

theorem leftStick_update (ec : EmulatedGameController) (events : List SDL_Event) :
    (updateEmulatedController ec events).state.leftStick =
      Vec2.scale
        (safeNormalize
          ⟨stickAxisX (afterFold ec events).leftStickLeft (afterFold ec events).leftStickRight,
           stickAxisY (afterFold ec events).leftStickUp (afterFold ec events).leftStickDown⟩)
        (stickFactor (afterFold ec events).shiftPressed) :=
  setSticks_leftStick _

theorem rightStick_update (ec : EmulatedGameController) (events : List SDL_Event) :
    (updateEmulatedController ec events).state.rightStick =
      Vec2.scale
        (safeNormalize
          ⟨stickAxisX (afterFold ec events).rightStickLeft (afterFold ec events).rightStickRight,
           stickAxisY (afterFold ec events).rightStickUp (afterFold ec events).rightStickDown⟩)
        (stickFactor (afterFold ec events).shiftPressed) :=
  setSticks_rightStick _

theorem read_afterFold (c : BoundControl) (ec : EmulatedGameController)
    (events : List SDL_Event) :
    c.read (updateEmulatedController ec events) = c.read (afterFold ec events) :=
  read_setSticks c _

theorem keys_disjoint (c c' : BoundControl) (k : Int) (h : k ∈ c.keys) (h' : k ∈ c'.keys) :
    c' = c := by
  cases c <;> cases c' <;>
    simp only [BoundControl.keys, List.mem_cons, List.mem_singleton, List.not_mem_nil,
      or_false, KEY_w, KEY_W, KEY_s, KEY_S, KEY_a, KEY_A, KEY_d, KEY_D, KEY_q, KEY_Q, KEY_e,
      KEY_E, KEY_f, KEY_F, KEY_g, KEY_G, SDLK_LSHIFT, SDLK_RSHIFT, SDLK_UP, SDLK_DOWN,
      SDLK_LEFT, SDLK_RIGHT, SDLK_ESCAPE] at h h' <;>
    first | rfl | (exfalso; omega)

theorem lastEventFor_single (c : BoundControl) (e : SDL_Event) :
    lastEventFor c [e] = if concerns c e then some e else none := by
  unfold lastEventFor
  by_cases h : concerns c e = true <;> simp [h]

theorem read_single_keyDown (c c' : BoundControl) (k : Int) (hk : k ∈ c.keys)
    (ec : EmulatedGameController) :
    c'.read (updateEmulatedController ec [keyDown k]) =
      if c' = c then ButtonState.DOWN else decayed (c'.read ec) := by
  rw [read_update, lastEventFor_single]
  by_cases hc : c' = c
  · subst hc
    have : concerns c' (keyDown k) = true := by
      simp [concerns, isKeyDownFor, keyDown, hk]
    rw [this]
    simp [keyDown]
  · have : concerns c' (keyDown k) = false := by
      have hk' : k ∉ c'.keys := fun h' => hc (keys_disjoint c c' k hk h')
      simp [concerns, isKeyDownFor, isKeyUpFor, keyDown, hk']
    rw [this]
    simp [hc]

theorem safeNormalize_of_length_one (v : Vec2) (h : Vec2.length v = 1) :
    safeNormalize v = v := by
  unfold safeNormalize
  rw [h]
  simp [Vec2.divide]

theorem synthesised_axis (up down left right : ButtonState) (x y : ℝ)
    (hx : stickAxisX left right = x) (hy : stickAxisY up down = y)
    (hlen : x * x + y * y = 1) :
    Vec2.scale (safeNormalize ⟨stickAxisX left right, stickAxisY up down⟩)
      (stickFactor ButtonState.NOT_PRESSED) = ⟨x, y⟩ := by
  rw [hx, hy, safeNormalize_of_length_one]
  · simp [stickFactor, Vec2.scale_one]
  · unfold Vec2.length Vec2.dot
    simp only
    rw [hlen, Real.sqrt_one]


theorem leftStick_of_substates (ec : EmulatedGameController) (events : List SDL_Event)
    (x y : ℝ)
    (hshift : (updateEmulatedController ec events).shiftPressed = ButtonState.NOT_PRESSED)
    (hx : stickAxisX (updateEmulatedController ec events).leftStickLeft
      (updateEmulatedController ec events).leftStickRight = x)
    (hy : stickAxisY (updateEmulatedController ec events).leftStickUp
      (updateEmulatedController ec events).leftStickDown = y)
    (hlen : x * x + y * y = 1) :
    (updateEmulatedController ec events).state.leftStick = ⟨x, y⟩ := by
  have hs : (afterFold ec events).shiftPressed = ButtonState.NOT_PRESSED := hshift
  rw [leftStick_update, hs]
  exact synthesised_axis _ _ _ _ x y hx hy hlen

theorem rightStick_of_substates (ec : EmulatedGameController) (events : List SDL_Event)
    (x y : ℝ)
    (hshift : (updateEmulatedController ec events).shiftPressed = ButtonState.NOT_PRESSED)
    (hx : stickAxisX (updateEmulatedController ec events).rightStickLeft
      (updateEmulatedController ec events).rightStickRight = x)
    (hy : stickAxisY (updateEmulatedController ec events).rightStickUp
      (updateEmulatedController ec events).rightStickDown = y)
    (hlen : x * x + y * y = 1) :
    (updateEmulatedController ec events).state.rightStick = ⟨x, y⟩ := by
  have hs : (afterFold ec events).shiftPressed = ButtonState.NOT_PRESSED := hshift
  rw [rightStick_update, hs]
  exact synthesised_axis _ _ _ _ x y hx hy hlen

/-! ## The button lifecycle under `updateEmulatedController` -/

/-- C1: after `updateEmulatedController`, every key-bound tracked state is `DOWN`
when the last event of the list that concerns one of its keys is a key-down, `UP`
when that last event is a key-up, and the decayed previous value when no event
concerns it; an event that concerns it is a key-down or a key-up. -/
theorem updateEmulatedController_bound_state (c : BoundControl)
    (ec : EmulatedGameController) (events : List SDL_Event) :
    (c.read (updateEmulatedController ec events) =
      match lastEventFor c events with
      | some e => if e.type = SDL_KEYDOWN then ButtonState.DOWN else ButtonState.UP
      | none => decayed (c.read ec)) ∧
    (∀ e, lastEventFor c events = some e → e.type = SDL_KEYDOWN ∨ e.type = SDL_KEYUP) :=
  ⟨read_update c ec events,
   fun e h => concerns_type c e (lastEventFor_concerns c events e h).2⟩

/-- C2: when the only event of a tick for a button's key is a key-down, the button
is `DOWN` after that tick, and `HELD` after each of the following ticks as long as
none of them has an event for that key; `DOWN` is not seen on two ticks in a
row. -/
theorem press_then_held (c : BoundControl) (ec : EmulatedGameController)
    (press : List SDL_Event) (e : SDL_Event) (ticks : List (List SDL_Event))
    (hpress : press.filter (concerns c) = [e]) (hdown : e.type = SDL_KEYDOWN)
    (hquiet : ∀ evs ∈ ticks, evs.filter (concerns c) = []) :
    c.read (updateEmulatedController ec press) = ButtonState.DOWN ∧
    ∀ n, 1 ≤ n → n ≤ ticks.length →
      c.read (runTicks (updateEmulatedController ec press) (ticks.take n)) = ButtonState.HELD ∧
      c.read (runTicks (updateEmulatedController ec press) (ticks.take n)) ≠ ButtonState.DOWN := by
  have h0 : c.read (updateEmulatedController ec press) = ButtonState.DOWN := by
    rw [read_update, lastEventFor_of_filter_singleton c press e hpress]
    simp [hdown]
  refine ⟨h0, fun n h1 hn => ?_⟩
  have hne : ticks.take n ≠ [] := by
    intro h
    have hl := congrArg List.length h
    rw [List.length_take] at hl
    simp only [List.length_nil] at hl
    omega
  have hq : ∀ evs ∈ ticks.take n, evs.filter (concerns c) = [] :=
    fun evs hm => hquiet evs (List.mem_of_mem_take hm)
  have hh := read_runTicks_quiet_held c (ticks.take n) hq hne _ (Or.inl h0)
  exact ⟨hh, by rw [hh]; decide⟩

/-- Instance of C2: the forward key pressed at rest, then a tick without events
and a tick with an unrelated key-down. -/
theorem press_then_held_witness :
    ([keyDown KEY_w].filter (concerns BoundControl.leftStickUp) = [keyDown KEY_w] ∧
      (keyDown KEY_w).type = SDL_KEYDOWN ∧
      ∀ evs ∈ [[], [keyDown KEY_q]], evs.filter (concerns BoundControl.leftStickUp) = []) ∧
    (BoundControl.leftStickUp.read (updateEmulatedController restController [keyDown KEY_w])
        = ButtonState.DOWN ∧
      ∀ n, 1 ≤ n → n ≤ [[], [keyDown KEY_q]].length →
        BoundControl.leftStickUp.read
            (runTicks (updateEmulatedController restController [keyDown KEY_w])
              ([[], [keyDown KEY_q]].take n)) = ButtonState.HELD ∧
        BoundControl.leftStickUp.read
            (runTicks (updateEmulatedController restController [keyDown KEY_w])
              ([[], [keyDown KEY_q]].take n)) ≠ ButtonState.DOWN) :=
  ⟨⟨by decide, by decide, by decide⟩,
   press_then_held BoundControl.leftStickUp restController [keyDown KEY_w] (keyDown KEY_w)
     [[], [keyDown KEY_q]] (by decide) (by decide) (by decide)⟩

/-- C3, as stated, fails: with both shift keys down the modifier is `HELD`; the
release of the left shift key makes it `UP`, a tick without events makes it
`NOT_PRESSED`; a further tick whose only event is the release of the right shift
key contains no key-down for the modifier, yet the state is `UP` again instead
of `NOT_PRESSED`. -/
theorem release_then_not_pressed_counterexample :
    BoundControl.shiftPressed.read shiftHeld = ButtonState.HELD ∧
    BoundControl.shiftPressed.read (updateEmulatedController shiftHeld [keyUp SDLK_LSHIFT])
      = ButtonState.UP ∧
    BoundControl.shiftPressed.read
      (updateEmulatedController (updateEmulatedController shiftHeld [keyUp SDLK_LSHIFT]) [])
      = ButtonState.NOT_PRESSED ∧
    isKeyDownFor BoundControl.shiftPressed (keyUp SDLK_RSHIFT) = false ∧
    BoundControl.shiftPressed.read
      (updateEmulatedController
        (updateEmulatedController (updateEmulatedController shiftHeld [keyUp SDLK_LSHIFT]) [])
        [keyUp SDLK_RSHIFT])
      = ButtonState.UP ∧
    BoundControl.shiftPressed.read
      (updateEmulatedController
        (updateEmulatedController (updateEmulatedController shiftHeld [keyUp SDLK_LSHIFT]) [])
        [keyUp SDLK_RSHIFT])
      ≠ ButtonState.NOT_PRESSED := by
  refine ⟨by decide, by decide, by decide, by decide, by decide, by decide⟩

/-- C3, amended: for a `HELD` button, a tick whose only event for its key is a
key-up leaves it `UP`; after any number of further ticks without a key-down for
that key, a tick without a key-down for it leaves it `NOT_PRESSED` when the tick
has no event for the key at all, and `UP` when it has a key-up for it. -/
theorem release_then_not_pressed (c : BoundControl) (ec : EmulatedGameController)
    (release : List SDL_Event) (e : SDL_Event) (before : List (List SDL_Event))
    (evs : List SDL_Event)
    (hheld : c.read ec = ButtonState.HELD)
    (hrelease : release.filter (concerns c) = [e]) (hup : e.type = SDL_KEYUP)
    (hbefore : ∀ t ∈ before, ∀ e' ∈ t, isKeyDownFor c e' = false)
    (hevs : ∀ e' ∈ evs, isKeyDownFor c e' = false) :
    c.read (updateEmulatedController ec release) = ButtonState.UP ∧
    c.read (updateEmulatedController
        (runTicks (updateEmulatedController ec release) before) evs) =
      if evs.filter (concerns c) = [] then ButtonState.NOT_PRESSED else ButtonState.UP := by
  have _ := hheld
  have h0 : c.read (updateEmulatedController ec release) = ButtonState.UP := by
    rw [read_update, lastEventFor_of_filter_singleton c release e hrelease]
    simp [hup]
  refine ⟨h0, ?_⟩
  have hinv := read_runTicks_no_down c before hbefore _ (Or.inl h0)
  rw [read_update_no_down c _ evs hevs]
  split_ifs
  · rcases hinv with h | h <;> rw [h] <;> rfl
  · rfl

/-- Instance of amended C3: shift held, the left shift key released, one tick with
the release of the right shift key, then a tick without events. -/
theorem release_then_not_pressed_witness :
    (BoundControl.shiftPressed.read shiftHeld = ButtonState.HELD ∧
      [keyUp SDLK_LSHIFT].filter (concerns BoundControl.shiftPressed) = [keyUp SDLK_LSHIFT] ∧
      (keyUp SDLK_LSHIFT).type = SDL_KEYUP ∧
      (∀ t ∈ [[keyUp SDLK_RSHIFT]], ∀ e' ∈ t,
        isKeyDownFor BoundControl.shiftPressed e' = false) ∧
      (∀ e' ∈ ([] : List SDL_Event), isKeyDownFor BoundControl.shiftPressed e' = false)) ∧
    (BoundControl.shiftPressed.read (updateEmulatedController shiftHeld [keyUp SDLK_LSHIFT])
        = ButtonState.UP ∧
      BoundControl.shiftPressed.read
        (updateEmulatedController
          (runTicks (updateEmulatedController shiftHeld [keyUp SDLK_LSHIFT])
            [[keyUp SDLK_RSHIFT]]) [])
        = if ([] : List SDL_Event).filter (concerns BoundControl.shiftPressed) = []
          then ButtonState.NOT_PRESSED else ButtonState.UP) :=
  ⟨⟨by decide, by decide, by decide, by decide, by decide⟩,
   release_then_not_pressed BoundControl.shiftPressed shiftHeld [keyUp SDLK_LSHIFT]
     (keyUp SDLK_LSHIFT) [[keyUp SDLK_RSHIFT]] [] (by decide) (by decide) (by decide)
     (by decide) (by decide)⟩

/-- C4, as stated, fails: a tick with a key-down of the forward key followed by
its key-up contains a key-down for that key, yet the direction is `UP`, not
`DOWN`, after the tick. -/
theorem down_one_tick_counterexample :
    [keyDown KEY_w, keyUp KEY_w].any (isKeyDownFor BoundControl.leftStickUp) = true ∧
    BoundControl.leftStickUp.read
      (updateEmulatedController restController [keyDown KEY_w, keyUp KEY_w]) = ButtonState.UP ∧
    BoundControl.leftStickUp.read
      (updateEmulatedController restController [keyDown KEY_w, keyUp KEY_w])
      ≠ ButtonState.DOWN := by
  refine ⟨by decide, by decide, by decide⟩

/-- C4, amended: when the last event of a tick that concerns a button's key is a
key-down, the button is `DOWN` after that tick, and it is not `DOWN` after the
following tick unless that tick has another key-down for it. -/
theorem down_one_tick (c : BoundControl) (ec : EmulatedGameController)
    (events : List SDL_Event) (e : SDL_Event) (next : List SDL_Event)
    (hlast : lastEventFor c events = some e) (hdown : e.type = SDL_KEYDOWN)
    (hnext : ∀ e' ∈ next, isKeyDownFor c e' = false) :
    c.read (updateEmulatedController ec events) = ButtonState.DOWN ∧
    c.read (updateEmulatedController (updateEmulatedController ec events) next)
      ≠ ButtonState.DOWN := by
  have h0 : c.read (updateEmulatedController ec events) = ButtonState.DOWN := by
    rw [read_update, hlast]
    simp [hdown]
  refine ⟨h0, ?_⟩
  rw [read_update_no_down c _ next hnext, h0]
  split_ifs <;> decide

/-- Instance of amended C4: key-up then key-down of the forward key in one tick,
followed by a tick with an unrelated key-down. -/
theorem down_one_tick_witness :
    (lastEventFor BoundControl.leftStickUp [keyUp KEY_w, keyDown KEY_w] = some (keyDown KEY_w) ∧
      (keyDown KEY_w).type = SDL_KEYDOWN ∧
      ∀ e' ∈ [keyDown KEY_q], isKeyDownFor BoundControl.leftStickUp e' = false) ∧
    (BoundControl.leftStickUp.read
        (updateEmulatedController restController [keyUp KEY_w, keyDown KEY_w])
        = ButtonState.DOWN ∧
      BoundControl.leftStickUp.read
        (updateEmulatedController
          (updateEmulatedController restController [keyUp KEY_w, keyDown KEY_w])
          [keyDown KEY_q])
        ≠ ButtonState.DOWN) :=
  ⟨⟨by decide, by decide, by decide⟩,
   down_one_tick BoundControl.leftStickUp restController [keyUp KEY_w, keyDown KEY_w]
     (keyDown KEY_w) [keyDown KEY_q] (by decide) (by decide) (by decide)⟩

/-! ## Stick synthesis -/

/-- C5: after every update each stored stick vector is `s * safeNormalize (x, y)`,
with `x`, `y` and `s` computed from the sub-states as they are after this tick's
decay and event fold (they are the sub-states of the result): `y` is `+1` for an
active up, else `-1` for an active down, else `0`; `x` is `-1` for an active
left, else `+1` for an active right, else `0`; `s` is `0.5` for an active shift,
else `1`.  An up in any of `DOWN`, `HELD`, `UP` gives `y = 1` whatever down is,
and a left in any of them gives `x = -1` whatever right is. -/
theorem stick_synthesis (ec : EmulatedGameController) (events : List SDL_Event) :
    (updateEmulatedController ec events).state.leftStick =
      Vec2.scale
        (safeNormalize
          ⟨stickAxisX (afterFold ec events).leftStickLeft (afterFold ec events).leftStickRight,
           stickAxisY (afterFold ec events).leftStickUp (afterFold ec events).leftStickDown⟩)
        (stickFactor (afterFold ec events).shiftPressed) ∧
    (updateEmulatedController ec events).state.rightStick =
      Vec2.scale
        (safeNormalize
          ⟨stickAxisX (afterFold ec events).rightStickLeft (afterFold ec events).rightStickRight,
           stickAxisY (afterFold ec events).rightStickUp (afterFold ec events).rightStickDown⟩)
        (stickFactor (afterFold ec events).shiftPressed) ∧
    (∀ c : BoundControl,
      c.read (updateEmulatedController ec events) = c.read (afterFold ec events)) ∧
    (∀ down : ButtonState,
      stickAxisY ButtonState.DOWN down = 1 ∧ stickAxisY ButtonState.HELD down = 1 ∧
      stickAxisY ButtonState.UP down = 1) ∧
    (∀ right : ButtonState,
      stickAxisX ButtonState.DOWN right = -1 ∧ stickAxisX ButtonState.HELD right = -1 ∧
      stickAxisX ButtonState.UP right = -1) := by
  refine ⟨leftStick_update ec events, rightStick_update ec events,
    fun c => read_afterFold c ec events, fun down => ?_, fun right => ?_⟩
  · simp [stickAxisY]
  · simp [stickAxisX]

/-- C6: over the reals, after every update each stick vector has both components
in `[-1, 1]`; its Euclidean length is `0` when none of the stick's four
directions is active (then it is the zero vector, also with shift active), `0.5`
when a direction and shift are active, and `1` when a direction is active and
shift is `NOT_PRESSED`. -/
theorem stick_bounds_and_length (ec : EmulatedGameController) (events : List SDL_Event) :
    ((-1 ≤ (updateEmulatedController ec events).state.leftStick.x ∧
        (updateEmulatedController ec events).state.leftStick.x ≤ 1 ∧
        -1 ≤ (updateEmulatedController ec events).state.leftStick.y ∧
        (updateEmulatedController ec events).state.leftStick.y ≤ 1) ∧
      Vec2.length (updateEmulatedController ec events).state.leftStick =
        claimedLength (leftStickActive (updateEmulatedController ec events))
          (updateEmulatedController ec events).shiftPressed ∧
      ((updateEmulatedController ec events).state.leftStick = ⟨0, 0⟩ ↔
        ¬ leftStickActive (updateEmulatedController ec events))) ∧
    ((-1 ≤ (updateEmulatedController ec events).state.rightStick.x ∧
        (updateEmulatedController ec events).state.rightStick.x ≤ 1 ∧
        -1 ≤ (updateEmulatedController ec events).state.rightStick.y ∧
        (updateEmulatedController ec events).state.rightStick.y ≤ 1) ∧
      Vec2.length (updateEmulatedController ec events).state.rightStick =
        claimedLength (rightStickActive (updateEmulatedController ec events))
          (updateEmulatedController ec events).shiftPressed ∧
      ((updateEmulatedController ec events).state.rightStick = ⟨0, 0⟩ ↔
        ¬ rightStickActive (updateEmulatedController ec events))) ∧
    (∀ shift : ButtonState, claimedLength False shift = 0) ∧
    (∀ shift : ButtonState, shift ≠ ButtonState.NOT_PRESSED ↔ claimedLength True shift = 0.5) ∧
    (claimedLength True ButtonState.NOT_PRESSED = 1) := by
  refine ⟨?_, ?_, fun shift => ?_, fun shift => ?_, ?_⟩
  · exact synthesised_stick_bounds _ _ _ _ _ _ (leftStick_update ec events)
  · exact synthesised_stick_bounds _ _ _ _ _ _ (rightStick_update ec events)
  · simp [claimedLength]
  · unfold claimedLength
    constructor
    · intro h; simp [h]
    · intro h
      by_contra hn
      simp only [if_true, ne_eq] at h
      rw [if_neg (not_not.mpr hn)] at h
      norm_num at h
  · simp [claimedLength]

/-- C7: from a state in which the four sub-states of a direction's stick and the
shift modifier are `NOT_PRESSED`, an update with the single key-down event of one
of the direction's keys sets the sub-state to `DOWN` and the stick to the unit
axis vector of the direction; a following update without events makes the
sub-state `HELD` and leaves the stick vector as it is. -/
theorem direction_press (d : StickDirection) (k : Int) (ec : EmulatedGameController)
    (hk : k ∈ d.control.keys) (hrest : d.stickAtRest ec) :
    d.control.read (updateEmulatedController ec [keyDown k]) = ButtonState.DOWN ∧
    d.stick (updateEmulatedController ec [keyDown k]) = d.axis ∧
    d.control.read (updateEmulatedController (updateEmulatedController ec [keyDown k]) [])
      = ButtonState.HELD ∧
    d.stick (updateEmulatedController (updateEmulatedController ec [keyDown k]) [])
      = d.stick (updateEmulatedController ec [keyDown k]) := by
  have sub1 : ∀ c' : BoundControl, c'.read (updateEmulatedController ec [keyDown k]) =
      if c' = d.control then ButtonState.DOWN else decayed (c'.read ec) :=
    fun c' => read_single_keyDown d.control c' k hk ec
  have sub2 : ∀ c' : BoundControl,
      c'.read (updateEmulatedController (updateEmulatedController ec [keyDown k]) []) =
        decayed (c'.read (updateEmulatedController ec [keyDown k])) :=
    fun c' => read_update_quiet c' _ [] rfl
  cases d <;> obtain ⟨r1, r2, r3, r4, r5⟩ := hrest <;> first
    | (guard_hyp r1 : ec.leftStickUp = ButtonState.NOT_PRESSED
       have u1 := sub1 .leftStickUp
       have u2 := sub1 .leftStickDown
       have u3 := sub1 .leftStickLeft
       have u4 := sub1 .leftStickRight
       have u5 := sub1 .shiftPressed
       simp only [StickDirection.control, BoundControl.read, r1, r2, r3, r4, r5, decayed,
         reduceCtorEq, if_true, if_false] at u1 u2 u3 u4 u5
       have v1 := sub2 .leftStickUp
       have v2 := sub2 .leftStickDown
       have v3 := sub2 .leftStickLeft
       have v4 := sub2 .leftStickRight
       have v5 := sub2 .shiftPressed
       simp only [BoundControl.read, u1, u2, u3, u4, u5, decayed] at v1 v2 v3 v4 v5
       have s1 := leftStick_of_substates ec [keyDown k] _ _ u5 rfl rfl
       have s2 := leftStick_of_substates (updateEmulatedController ec [keyDown k]) [] _ _ v5
         rfl rfl
       simp only [u1, u2, u3, u4, v1, v2, v3, v4, stickAxisX, stickAxisY, ne_eq, reduceCtorEq,
         not_true_eq_false, not_false_eq_true, if_true, if_false] at s1 s2
       have t1 := s1 (by norm_num)
       have t2 := s2 (by norm_num)
       simp only [StickDirection.control, BoundControl.read, StickDirection.stick,
         StickDirection.axis, u1, u2, u3, u4, v1, v2, v3, v4, t1, t2, and_self])
    | (guard_hyp r1 : ec.rightStickUp = ButtonState.NOT_PRESSED
       have u1 := sub1 .rightStickUp
       have u2 := sub1 .rightStickDown
       have u3 := sub1 .rightStickLeft
       have u4 := sub1 .rightStickRight
       have u5 := sub1 .shiftPressed
       simp only [StickDirection.control, BoundControl.read, r1, r2, r3, r4, r5, decayed,
         reduceCtorEq, if_true, if_false] at u1 u2 u3 u4 u5
       have v1 := sub2 .rightStickUp
       have v2 := sub2 .rightStickDown
       have v3 := sub2 .rightStickLeft
       have v4 := sub2 .rightStickRight
       have v5 := sub2 .shiftPressed
       simp only [BoundControl.read, u1, u2, u3, u4, u5, decayed] at v1 v2 v3 v4 v5
       have s1 := rightStick_of_substates ec [keyDown k] _ _ u5 rfl rfl
       have s2 := rightStick_of_substates (updateEmulatedController ec [keyDown k]) [] _ _ v5
         rfl rfl
       simp only [u1, u2, u3, u4, v1, v2, v3, v4, stickAxisX, stickAxisY, ne_eq, reduceCtorEq,
         not_true_eq_false, not_false_eq_true, if_true, if_false] at s1 s2
       have t1 := s1 (by norm_num)
       have t2 := s2 (by norm_num)
       simp only [StickDirection.control, BoundControl.read, StickDirection.stick,
         StickDirection.axis, u1, u2, u3, u4, v1, v2, v3, v4, t1, t2, and_self])

/-- Instance of C7: the key `w` pressed at rest gives `leftStick = (0, 1)`. -/
theorem direction_press_witness :
    (KEY_w ∈ StickDirection.leftUp.control.keys ∧
      StickDirection.leftUp.stickAtRest restController) ∧
    (StickDirection.leftUp.control.read (updateEmulatedController restController [keyDown KEY_w])
        = ButtonState.DOWN ∧
      StickDirection.leftUp.stick (updateEmulatedController restController [keyDown KEY_w])
        = StickDirection.leftUp.axis ∧
      StickDirection.leftUp.control.read
        (updateEmulatedController (updateEmulatedController restController [keyDown KEY_w]) [])
        = ButtonState.HELD ∧
      StickDirection.leftUp.stick
        (updateEmulatedController (updateEmulatedController restController [keyDown KEY_w]) [])
        = StickDirection.leftUp.stick
          (updateEmulatedController restController [keyDown KEY_w])) :=
  ⟨⟨by decide, ⟨rfl, rfl, rfl, rfl, rfl⟩⟩,
   direction_press StickDirection.leftUp KEY_w restController (by decide)
     ⟨rfl, rfl, rfl, rfl, rfl⟩⟩

/-! ## Unknown events -/

theorem handleKeyDown_unknown (ec : EmulatedGameController) (k : Int)
    (hk : k ∉ bindingTable) : handleKeyDown ec k = ec := by
  unfold handleKeyDown
  simp only [bindingTable, List.mem_cons, List.mem_singleton, List.not_mem_nil, or_false,
    not_or] at hk
  obtain ⟨hw, hW, hs, hS, ha, hA, hd, hD, hls, hrs, hup, hdown, hleft, hright, hq, hQ, he,
    hE, hf, hF, hg, hG, hesc⟩ := hk
  rw [if_neg (not_or.mpr ⟨hw, hW⟩), if_neg (not_or.mpr ⟨hs, hS⟩),
    if_neg (not_or.mpr ⟨ha, hA⟩), if_neg (not_or.mpr ⟨hd, hD⟩),
    if_neg (not_or.mpr ⟨hls, hrs⟩), if_neg hup, if_neg hdown, if_neg hleft, if_neg hright,
    if_neg (not_or.mpr ⟨hq, hQ⟩), if_neg (not_or.mpr ⟨he, hE⟩),
    if_neg (not_or.mpr ⟨hf, hF⟩), if_neg (not_or.mpr ⟨hg, hG⟩), if_neg hesc]

theorem handleKeyUp_unknown (ec : EmulatedGameController) (k : Int)
    (hk : k ∉ bindingTable) : handleKeyUp ec k = ec := by
  unfold handleKeyUp
  simp only [bindingTable, List.mem_cons, List.mem_singleton, List.not_mem_nil, or_false,
    not_or] at hk
  obtain ⟨hw, hW, hs, hS, ha, hA, hd, hD, hls, hrs, hup, hdown, hleft, hright, hq, hQ, he,
    hE, hf, hF, hg, hG, hesc⟩ := hk
  rw [if_neg (not_or.mpr ⟨hw, hW⟩), if_neg (not_or.mpr ⟨ha, hA⟩),
    if_neg (not_or.mpr ⟨hs, hS⟩), if_neg (not_or.mpr ⟨hd, hD⟩),
    if_neg (not_or.mpr ⟨hls, hrs⟩), if_neg hup, if_neg hdown, if_neg hleft, if_neg hright,
    if_neg (not_or.mpr ⟨hq, hQ⟩), if_neg (not_or.mpr ⟨he, hE⟩),
    if_neg (not_or.mpr ⟨hf, hF⟩), if_neg (not_or.mpr ⟨hg, hG⟩), if_neg hesc]

theorem handleEvent_unknown (ec : EmulatedGameController) (e : SDL_Event)
    (h : isKnownEvent e = false) : handleEvent ec e = ec := by
  unfold isKnownEvent at h
  simp only [decide_eq_false_iff_not, not_and] at h
  unfold handleEvent
  by_cases hd : e.type = SDL_KEYDOWN
  · rw [if_pos hd]
    exact handleKeyDown_unknown ec e.sym (h (Or.inl hd))
  · rw [if_neg hd]
    by_cases hu : e.type = SDL_KEYUP
    · rw [if_pos hu]
      exact handleKeyUp_unknown ec e.sym (h (Or.inr hu))
    · rw [if_neg hu]

theorem foldEvents_filter_known (events : List SDL_Event) :
    ∀ ec : EmulatedGameController,
      foldEvents ec (events.filter isKnownEvent) = foldEvents ec events := by
  induction events with
  | nil => intro ec; rfl
  | cons e rest ih =>
    intro ec
    by_cases h : isKnownEvent e = true
    · rw [List.filter_cons_of_pos h]
      exact ih (handleEvent ec e)
    · have h' : isKnownEvent e = false := by simpa using h
      rw [List.filter_cons_of_neg h]
      show _ = foldEvents (handleEvent ec e) rest
      rw [handleEvent_unknown ec e h']
      exact ih ec

/-- C8: `updateEmulatedController` is a total function whose result does not
change when every unknown event (neither key-down nor key-up, or a key outside
the binding table) is removed from the event list. -/
theorem unknown_events_ignored (ec : EmulatedGameController) (events : List SDL_Event) :
    updateEmulatedController ec events =
      updateEmulatedController ec (events.filter isKnownEvent) := by
  unfold updateEmulatedController
  rw [foldEvents_filter_known]

/-! ## Input processing and the quit directive -/

/-- C9: `processInput` returns `NO_OP`; the unified controller state becomes the
state of the real controller at index 0 when there is one, and otherwise the
emulated state as updated by this tick's events; the emulated controller after
the call is the update of its previous state by the event list, whatever the
connected controllers are. -/
theorem processInput_contract (self : TestbedUpdateable) (updateInfo : UpdateInfo)
    (input : UserInput) :
    (processInput self updateInfo input).1 = UpdateOp.NO_OP ∧
    (processInput self updateInfo input).2.mCtrl =
      (match input.controllers 0 with
       | some st => st
       | none => (updateEmulatedController self.mEmulatedController input.events).state) ∧
    (processInput self updateInfo input).2.mEmulatedController =
      updateEmulatedController self.mEmulatedController input.events ∧
    (∀ controllers : Nat → Option GameControllerState,
      (processInput self updateInfo { input with controllers := controllers }).2.mEmulatedController
        = (processInput self updateInfo input).2.mEmulatedController) := by
  refine ⟨rfl, rfl, rfl, fun _ => rfl⟩

/-- C10: `updateTick` returns `QUIT` exactly when the back button of the unified
controller state is `UP`, and `NO_OP` exactly when it is `NOT_PRESSED`, `DOWN` or
`HELD`, whatever the tick time, the camera and the rest of the controller state
are. -/
theorem updateTick_quit_iff (self : TestbedUpdateable) (updateInfo : UpdateInfo) :
    ((updateTick self updateInfo).1 = UpdateOp.QUIT ↔ self.mCtrl.back = ButtonState.UP) ∧
    ((updateTick self updateInfo).1 = UpdateOp.NO_OP ↔
      (self.mCtrl.back = ButtonState.NOT_PRESSED ∨ self.mCtrl.back = ButtonState.DOWN ∨
        self.mCtrl.back = ButtonState.HELD)) := by
  have hq : self.mCtrl.back = ButtonState.UP → (updateTick self updateInfo).1 = UpdateOp.QUIT := by
    intro h
    unfold updateTick
    simp only [h, if_true]
  have hn : self.mCtrl.back ≠ ButtonState.UP →
      (updateTick self updateInfo).1 = UpdateOp.NO_OP := by
    intro h
    unfold updateTick
    simp only [h, if_false]
  constructor
  · constructor
    · intro h
      by_contra hne
      rw [hn hne] at h
      exact UpdateOp.noConfusion h
    · exact hq
  · constructor
    · intro h
      have hne : self.mCtrl.back ≠ ButtonState.UP := by
        intro hu
        rw [hq hu] at h
        exact UpdateOp.noConfusion h
      revert hne
      cases self.mCtrl.back <;> simp
    · intro h
      apply hn
      rcases h with h | h | h <;> rw [h] <;> decide

/-! ## The camera tick -/

theorem updateTick_blocks (self : TestbedUpdateable) (updateInfo : UpdateInfo) :
    updateTick self updateInfo =
      if self.mCtrl.back = ButtonState.UP then
        (UpdateOp.QUIT, { self with mCam := cameraBeforeMenu self updateInfo })
      else
        (UpdateOp.NO_OP,
          { self with
            mCam := setDir (cameraBeforeMenu self updateInfo)
              (cameraBeforeMenu self updateInfo).dir ⟨0, 1, 0⟩ }) :=
  rfl

theorem setDir_pos (cam : CameraData) (direction up : Vec3) :
    (setDir cam direction up).pos = cam.pos := rfl

theorem rightStickStep_pos (mCtrl : GameControllerState) (delta : ℝ) (mCam : CameraData) :
    (rightStickStep mCtrl delta mCam).pos = mCam.pos := by
  unfold rightStickStep
  split_ifs <;> rfl

theorem updateTick_pos (self : TestbedUpdateable) (updateInfo : UpdateInfo) :
    (updateTick self updateInfo).2.mCam.pos = (cameraBeforeMenu self updateInfo).pos := by
  rw [updateTick_blocks]
  split_ifs <;> rfl

theorem updateTick_directive (self : TestbedUpdateable) (updateInfo : UpdateInfo) :
    (updateTick self updateInfo).1 =
      if self.mCtrl.back = ButtonState.UP then UpdateOp.QUIT else UpdateOp.NO_OP := by
  rw [updateTick_blocks]
  split_ifs <;> rfl

theorem leftStickStep_inside (mCtrl : GameControllerState) (delta : ℝ) (mCam : CameraData)
    (h : Vec2.length mCtrl.leftStick ≤ mCtrl.stickDeadzone) :
    leftStickStep mCtrl delta mCam = mCam := by
  unfold leftStickStep
  rw [if_neg (not_lt.mpr h)]

theorem rightStickStep_inside (mCtrl : GameControllerState) (delta : ℝ) (mCam : CameraData)
    (h : Vec2.length mCtrl.rightStick ≤ mCtrl.stickDeadzone) :
    rightStickStep mCtrl delta mCam = mCam := by
  unfold rightStickStep
  rw [if_neg (not_lt.mpr h)]

/-- C11: the speed `updateTick` moves with is `10 + 25 * leftTrigger` when the left
trigger is strictly above the trigger deadzone and `10` otherwise (equality
included); neither it nor the camera and directive of the tick depend on the
right trigger; a trigger of `0.6` with deadzone `0.5` gives `25`.  With the left
stick inside its deadzone and the left shoulder `DOWN` or `HELD`, the tick lowers
the camera's `y` by that speed times the tick time and keeps `x` and `z`. -/
theorem movement_speed (self : TestbedUpdateable) (updateInfo : UpdateInfo) :
    (self.mCtrl.leftTrigger > self.mCtrl.triggerDeadzone →
      currentSpeed self.mCtrl = 10 + 25 * self.mCtrl.leftTrigger) ∧
    (self.mCtrl.leftTrigger ≤ self.mCtrl.triggerDeadzone → currentSpeed self.mCtrl = 10) ∧
    (∀ r : ℝ, currentSpeed { self.mCtrl with rightTrigger := r } = currentSpeed self.mCtrl) ∧
    (∀ r : ℝ,
      (updateTick { self with mCtrl := { self.mCtrl with rightTrigger := r } } updateInfo).1 =
        (updateTick self updateInfo).1 ∧
      (updateTick { self with mCtrl := { self.mCtrl with rightTrigger := r } }
          updateInfo).2.mCam = (updateTick self updateInfo).2.mCam) ∧
    (self.mCtrl.leftTrigger = 0.6 → self.mCtrl.triggerDeadzone = 0.5 →
      currentSpeed self.mCtrl = 25) ∧
    (Vec2.length self.mCtrl.leftStick ≤ self.mCtrl.stickDeadzone →
      (self.mCtrl.leftShoulder = ButtonState.DOWN ∨
        self.mCtrl.leftShoulder = ButtonState.HELD) →
      (updateTick self updateInfo).2.mCam.pos.y =
          self.mCam.pos.y - currentSpeed self.mCtrl * updateInfo.tickTimeSeconds ∧
        (updateTick self updateInfo).2.mCam.pos.x = self.mCam.pos.x ∧
        (updateTick self updateInfo).2.mCam.pos.z = self.mCam.pos.z) := by
  refine ⟨fun h => ?_, fun h => ?_, fun r => rfl, fun r => ⟨?_, ?_⟩, fun h1 h2 => ?_,
    fun hstick hsh => ?_⟩
  · unfold currentSpeed
    simp only [h, if_true]
    ring
  · unfold currentSpeed
    simp only [gt_iff_lt, not_lt.mpr h, if_false]
  · rw [updateTick_directive, updateTick_directive]
  · rw [updateTick_blocks, updateTick_blocks]
    by_cases hb : self.mCtrl.back = ButtonState.UP
    · rw [if_pos hb, if_pos hb]
      rfl
    · rw [if_neg hb, if_neg hb]
      rfl
  · unfold currentSpeed
    rw [h1, h2]
    norm_num
  · rw [updateTick_pos]
    unfold cameraBeforeMenu shoulderStep
    rw [if_pos hsh, leftStickStep_inside _ _ _ hstick]
    simp only [Vec3.sub, Vec3.scale, rightStickStep_pos]
    refine ⟨by ring, by ring, by ring⟩

theorem Vec2.length_zero : Vec2.length ⟨0, 0⟩ = 0 := by
  simp [Vec2.length, Vec2.dot]

theorem Vec2.length_unit_y : Vec2.length ⟨0, 1⟩ = 1 := by
  simp [Vec2.length, Vec2.dot]

theorem Vec2.length_unit_x : Vec2.length ⟨1, 0⟩ = 1 := by
  simp [Vec2.length, Vec2.dot]

/-- Instance of C11: at rest with the left shoulder `HELD` and a tick time of
`0.1`, the camera moves down by `10 * 0.1`. -/
theorem movement_speed_witness :
    (Vec2.length
        (testbedWith forwardCamera { restState with leftShoulder := .HELD }).mCtrl.leftStick
        ≤ (testbedWith forwardCamera { restState with leftShoulder := .HELD }).mCtrl.stickDeadzone ∧
      ((testbedWith forwardCamera { restState with leftShoulder := .HELD }).mCtrl.leftShoulder
          = ButtonState.DOWN ∨
        (testbedWith forwardCamera { restState with leftShoulder := .HELD }).mCtrl.leftShoulder
          = ButtonState.HELD)) ∧
    ((updateTick (testbedWith forwardCamera { restState with leftShoulder := .HELD })
        ⟨0.1⟩).2.mCam.pos.y =
        (testbedWith forwardCamera { restState with leftShoulder := .HELD }).mCam.pos.y -
          currentSpeed (testbedWith forwardCamera { restState with leftShoulder := .HELD }).mCtrl
            * (UpdateInfo.mk 0.1).tickTimeSeconds ∧
      (updateTick (testbedWith forwardCamera { restState with leftShoulder := .HELD })
        ⟨0.1⟩).2.mCam.pos.x =
        (testbedWith forwardCamera { restState with leftShoulder := .HELD }).mCam.pos.x ∧
      (updateTick (testbedWith forwardCamera { restState with leftShoulder := .HELD })
        ⟨0.1⟩).2.mCam.pos.z =
        (testbedWith forwardCamera { restState with leftShoulder := .HELD }).mCam.pos.z) :=
  ⟨⟨le_of_eq Vec2.length_zero, Or.inr rfl⟩,
   (movement_speed (testbedWith forwardCamera { restState with leftShoulder := .HELD })
      ⟨0.1⟩).2.2.2.2.2 (le_of_eq Vec2.length_zero) (Or.inr rfl)⟩

/-- C12: the position after `updateTick` is the position after the stick blocks,
lowered by `(0, 1, 0) * currentSpeed * delta` when the left shoulder is `DOWN` or
`HELD` (whatever the right shoulder is), else raised by the same vector when the
right shoulder is `DOWN` or `HELD`, else unchanged; the position after the stick
blocks is the position of the same tick with both shoulders released, and a
shoulder that is not `DOWN` or `HELD` is `UP` or `NOT_PRESSED`. -/
theorem shoulder_movement (self : TestbedUpdateable) (updateInfo : UpdateInfo) :
    (updateTick self updateInfo).2.mCam.pos =
      (if self.mCtrl.leftShoulder = ButtonState.DOWN ∨
          self.mCtrl.leftShoulder = ButtonState.HELD then
        Vec3.sub (updateTick (releaseShoulders self) updateInfo).2.mCam.pos
          (Vec3.scale (Vec3.scale worldUp (currentSpeed self.mCtrl))
            updateInfo.tickTimeSeconds)
      else if self.mCtrl.rightShoulder = ButtonState.DOWN ∨
          self.mCtrl.rightShoulder = ButtonState.HELD then
        Vec3.add (updateTick (releaseShoulders self) updateInfo).2.mCam.pos
          (Vec3.scale (Vec3.scale worldUp (currentSpeed self.mCtrl))
            updateInfo.tickTimeSeconds)
      else (updateTick (releaseShoulders self) updateInfo).2.mCam.pos) ∧
    (updateTick (releaseShoulders self) updateInfo).2.mCam.pos =
      (leftStickStep self.mCtrl updateInfo.tickTimeSeconds
        (rightStickStep self.mCtrl updateInfo.tickTimeSeconds self.mCam)).pos ∧
    (∀ shoulder : ButtonState,
      ¬(shoulder = ButtonState.DOWN ∨ shoulder = ButtonState.HELD) ↔
        (shoulder = ButtonState.UP ∨ shoulder = ButtonState.NOT_PRESSED)) := by
  have hrel : (updateTick (releaseShoulders self) updateInfo).2.mCam.pos =
      (leftStickStep self.mCtrl updateInfo.tickTimeSeconds
        (rightStickStep self.mCtrl updateInfo.tickTimeSeconds self.mCam)).pos := by
    rw [updateTick_pos]
    rfl
  refine ⟨?_, hrel, fun shoulder => by cases shoulder <;> simp⟩
  rw [hrel, updateTick_pos]
  unfold cameraBeforeMenu shoulderStep
  split_ifs <;> rfl

/-- C14: with the right stick inside its deadzone and both shoulders inactive, the
position after `updateTick` is
`pos + (dir * leftStick.y + right * leftStick.x) * currentSpeed * delta` with
`right = normalize (cross (dir, up))` when the Euclidean length of the left
stick is strictly above the stick deadzone, and the old position otherwise. -/
theorem left_stick_movement (self : TestbedUpdateable) (updateInfo : UpdateInfo)
    (hright : Vec2.length self.mCtrl.rightStick ≤ self.mCtrl.stickDeadzone)
    (hleftShoulder : ¬(self.mCtrl.leftShoulder = ButtonState.DOWN ∨
      self.mCtrl.leftShoulder = ButtonState.HELD))
    (hrightShoulder : ¬(self.mCtrl.rightShoulder = ButtonState.DOWN ∨
      self.mCtrl.rightShoulder = ButtonState.HELD)) :
    (updateTick self updateInfo).2.mCam.pos =
      if Vec2.length self.mCtrl.leftStick > self.mCtrl.stickDeadzone then
        Vec3.add self.mCam.pos
          (Vec3.scale
            (Vec3.scale
              (Vec3.add (Vec3.scale self.mCam.dir self.mCtrl.leftStick.y)
                (Vec3.scale (normalize (Vec3.cross self.mCam.dir self.mCam.up))
                  self.mCtrl.leftStick.x))
              (currentSpeed self.mCtrl))
            updateInfo.tickTimeSeconds)
      else self.mCam.pos := by
  rw [updateTick_pos]
  unfold cameraBeforeMenu shoulderStep
  rw [if_neg hleftShoulder, if_neg hrightShoulder, rightStickStep_inside _ _ _ hright]
  unfold leftStickStep
  split_ifs <;> rfl

theorem currentSpeed_restState_with_leftStick (v : Vec2) :
    currentSpeed { restState with leftStick := v } = 10 := by
  simp [currentSpeed, restState]

/-- Instance of C14: `leftStick = (0, 1)`, speed `10`, tick time `0.1`, direction
`(0, 0, -1)` and up `(0, 1, 0)` add `(0, 0, -1)` to the position. -/
theorem left_stick_movement_witness :
    (Vec2.length (testbedWith forwardCamera { restState with leftStick := ⟨0, 1⟩ }).mCtrl.rightStick
        ≤ (testbedWith forwardCamera { restState with leftStick := ⟨0, 1⟩ }).mCtrl.stickDeadzone ∧
      ¬((testbedWith forwardCamera { restState with leftStick := ⟨0, 1⟩ }).mCtrl.leftShoulder
          = ButtonState.DOWN ∨
        (testbedWith forwardCamera { restState with leftStick := ⟨0, 1⟩ }).mCtrl.leftShoulder
          = ButtonState.HELD) ∧
      ¬((testbedWith forwardCamera { restState with leftStick := ⟨0, 1⟩ }).mCtrl.rightShoulder
          = ButtonState.DOWN ∨
        (testbedWith forwardCamera { restState with leftStick := ⟨0, 1⟩ }).mCtrl.rightShoulder
          = ButtonState.HELD)) ∧
    currentSpeed (testbedWith forwardCamera { restState with leftStick := ⟨0, 1⟩ }).mCtrl = 10 ∧
    (updateTick (testbedWith forwardCamera { restState with leftStick := ⟨0, 1⟩ })
        ⟨0.1⟩).2.mCam.pos = Vec3.add forwardCamera.pos ⟨0, 0, -1⟩ := by
  have h1 : Vec2.length
      (testbedWith forwardCamera { restState with leftStick := ⟨0, 1⟩ }).mCtrl.rightStick
      ≤ (testbedWith forwardCamera { restState with leftStick := ⟨0, 1⟩ }).mCtrl.stickDeadzone :=
    le_of_eq Vec2.length_zero
  have h2 : ¬((testbedWith forwardCamera { restState with leftStick := ⟨0, 1⟩ }).mCtrl.leftShoulder
        = ButtonState.DOWN ∨
      (testbedWith forwardCamera { restState with leftStick := ⟨0, 1⟩ }).mCtrl.leftShoulder
        = ButtonState.HELD) := by decide
  have h3 : ¬((testbedWith forwardCamera { restState with leftStick := ⟨0, 1⟩ }).mCtrl.rightShoulder
        = ButtonState.DOWN ∨
      (testbedWith forwardCamera { restState with leftStick := ⟨0, 1⟩ }).mCtrl.rightShoulder
        = ButtonState.HELD) := by decide
  have hs := currentSpeed_restState_with_leftStick ⟨0, 1⟩
  refine ⟨⟨h1, h2, h3⟩, hs, ?_⟩
  rw [left_stick_movement _ _ h1 h2 h3]
  have hlen : Vec2.length
      (testbedWith forwardCamera { restState with leftStick := ⟨0, 1⟩ }).mCtrl.leftStick
      > (testbedWith forwardCamera { restState with leftStick := ⟨0, 1⟩ }).mCtrl.stickDeadzone := by
    show Vec2.length ⟨0, 1⟩ > 0
    rw [Vec2.length_unit_y]
    norm_num
  rw [if_pos hlen]
  show Vec3.add forwardCamera.pos
      (Vec3.scale (Vec3.scale (Vec3.add (Vec3.scale forwardCamera.dir 1)
        (Vec3.scale (normalize (Vec3.cross forwardCamera.dir forwardCamera.up)) 0))
        (currentSpeed { restState with leftStick := ⟨0, 1⟩ })) 0.1) = _
  rw [hs]
  simp only [Vec3.add, Vec3.scale, forwardCamera]
  ext <;> norm_num

/-! ## Turning -/

theorem Vec3.length_of_dot_self_one (v : Vec3) (h : Vec3.dot v v = 1) : Vec3.length v = 1 := by
  unfold Vec3.length
  rw [h, Real.sqrt_one]

theorem normalize_of_dot_self_one (v : Vec3) (h : Vec3.dot v v = 1) : normalize v = v := by
  unfold normalize Vec3.divide
  rw [Vec3.length_of_dot_self_one v h]
  simp

theorem Mat3.mulVec_mul (m n : Mat3) (v : Vec3) :
    Mat3.mulVec (Mat3.mul m n) v = Mat3.mulVec m (Mat3.mulVec n v) := by
  simp only [Mat3.mulVec, Mat3.mul, Vec3.dot]
  ext <;> ring

theorem normalize_neg_worldUp : normalize ⟨0, -1, 0⟩ = ⟨0, -1, 0⟩ :=
  normalize_of_dot_self_one _ (by simp [Vec3.dot])

theorem normalize_worldUp : normalize worldUp = worldUp :=
  normalize_of_dot_self_one _ (by simp [Vec3.dot, worldUp])

theorem rotation3_neg_worldUp (angle : ℝ) :
    rotation3 ⟨0, -1, 0⟩ angle = rotation3 worldUp (-angle) := by
  unfold rotation3
  rw [normalize_neg_worldUp, normalize_worldUp]
  simp [worldUp, Real.cos_neg, Real.sin_neg]

theorem xTurn_eq (mCtrl : GameControllerState) (delta : ℝ) :
    xTurn mCtrl delta = rotation3 worldUp (-(mCtrl.rightStick.x * (0.8 * Real.pi) * delta)) := by
  unfold xTurn turningSpeed
  exact rotation3_neg_worldUp _

theorem leftStickStep_dir_up (mCtrl : GameControllerState) (delta : ℝ) (mCam : CameraData) :
    (leftStickStep mCtrl delta mCam).dir = mCam.dir ∧
      (leftStickStep mCtrl delta mCam).up = mCam.up := by
  unfold leftStickStep
  split_ifs <;> exact ⟨rfl, rfl⟩

theorem shoulderStep_dir_up (mCtrl : GameControllerState) (delta : ℝ) (mCam : CameraData) :
    (shoulderStep mCtrl delta mCam).dir = mCam.dir ∧
      (shoulderStep mCtrl delta mCam).up = mCam.up := by
  unfold shoulderStep
  split_ifs <;> exact ⟨rfl, rfl⟩

theorem cameraBeforeMenu_dir_up (self : TestbedUpdateable) (updateInfo : UpdateInfo) :
    (cameraBeforeMenu self updateInfo).dir =
        (rightStickStep self.mCtrl updateInfo.tickTimeSeconds self.mCam).dir ∧
      (cameraBeforeMenu self updateInfo).up =
        (rightStickStep self.mCtrl updateInfo.tickTimeSeconds self.mCam).up := by
  unfold cameraBeforeMenu
  rw [(shoulderStep_dir_up _ _ _).1, (shoulderStep_dir_up _ _ _).2,
    (leftStickStep_dir_up _ _ _).1, (leftStickStep_dir_up _ _ _).2]
  exact ⟨rfl, rfl⟩

theorem turnRight_angle : (1 : ℝ) * turningSpeed * 0.625 = Real.pi / 2 := by
  unfold turningSpeed
  ring

theorem turnRight_right :
    normalize (Vec3.cross forwardCamera.dir forwardCamera.up) = ⟨1, 0, 0⟩ := by
  have h : Vec3.cross forwardCamera.dir forwardCamera.up = ⟨1, 0, 0⟩ := by
    simp [Vec3.cross, forwardCamera]
  rw [h]
  exact normalize_of_dot_self_one _ (by simp [Vec3.dot])

theorem turnRight_yTurn :
    yTurn turnRightTick.mCtrl 0.625 turnRightTick.mCam =
      ⟨⟨1, 0, 0⟩, ⟨0, 1, 0⟩, ⟨0, 0, 1⟩⟩ := by
  show rotation3 (normalize (Vec3.cross forwardCamera.dir forwardCamera.up))
    ((0 : ℝ) * turningSpeed * 0.625) = _
  rw [turnRight_right]
  unfold rotation3
  rw [normalize_of_dot_self_one _ (by simp [Vec3.dot])]
  simp

theorem turnRight_xTurn :
    xTurn turnRightTick.mCtrl 0.625 = ⟨⟨0, 0, -1⟩, ⟨0, 1, 0⟩, ⟨1, 0, 0⟩⟩ := by
  show rotation3 ⟨0, -1, 0⟩ ((1 : ℝ) * turningSpeed * 0.625) = _
  rw [turnRight_angle]
  unfold rotation3
  rw [normalize_neg_worldUp]
  simp

theorem turnRight_claimedYaw :
    claimedYaw turnRightTick.mCtrl 0.625 = ⟨⟨0, 0, 1⟩, ⟨0, 1, 0⟩, ⟨-1, 0, 0⟩⟩ := by
  have ha : (1 : ℝ) * (0.8 * Real.pi) * 0.625 = Real.pi / 2 := by ring
  show rotation3 worldUp ((1 : ℝ) * (0.8 * Real.pi) * 0.625) = _
  rw [ha]
  unfold rotation3
  rw [normalize_worldUp]
  simp [worldUp]

theorem turnRight_length :
    Vec2.length turnRightTick.mCtrl.rightStick > turnRightTick.mCtrl.stickDeadzone := by
  show Vec2.length ⟨1, 0⟩ > 0
  rw [Vec2.length_unit_x]
  norm_num

theorem rightStickStep_turn (mCtrl : GameControllerState) (delta : ℝ) (mCam : CameraData)
    (h : Vec2.length mCtrl.rightStick > mCtrl.stickDeadzone) :
    rightStickStep mCtrl delta mCam =
      setDir mCam
        (Mat3.mulVec
          (rotation3 (normalize (Vec3.cross mCam.dir mCam.up))
            (mCtrl.rightStick.y * (0.8 * Real.pi) * delta))
          (Mat3.mulVec (rotation3 ⟨0, -1, 0⟩ (mCtrl.rightStick.x * (0.8 * Real.pi) * delta))
            mCam.dir))
        (Mat3.mulVec
          (rotation3 (normalize (Vec3.cross mCam.dir mCam.up))
            (mCtrl.rightStick.y * (0.8 * Real.pi) * delta))
          (Mat3.mulVec (rotation3 ⟨0, -1, 0⟩ (mCtrl.rightStick.x * (0.8 * Real.pi) * delta))
            mCam.up)) := by
  unfold rightStickStep
  rw [if_pos h, Mat3.mulVec_mul, Mat3.mulVec_mul]
  rfl

/-- C15, as stated, fails: with the right stick at `(1, 0)`, a tick time of `0.625`
(a yaw angle of `pi / 2`) and the camera looking along `(0, 0, -1)`, the code
hands the direction `(1, 0, 0)` to `setDir` and the tick ends with that
direction, while the pitch after a yaw about `(0, 1, 0)` by the same angle gives
`(-1, 0, 0)`. -/
theorem turn_arguments_counterexample :
    Vec2.length turnRightTick.mCtrl.rightStick > turnRightTick.mCtrl.stickDeadzone ∧
    Mat3.mulVec
      (Mat3.mul (yTurn turnRightTick.mCtrl 0.625 turnRightTick.mCam)
        (xTurn turnRightTick.mCtrl 0.625))
      turnRightTick.mCam.dir = ⟨1, 0, 0⟩ ∧
    Mat3.mulVec
      (Mat3.mul (yTurn turnRightTick.mCtrl 0.625 turnRightTick.mCam)
        (claimedYaw turnRightTick.mCtrl 0.625))
      turnRightTick.mCam.dir = ⟨-1, 0, 0⟩ ∧
    (updateTick turnRightTick ⟨0.625⟩).2.mCam.dir = ⟨1, 0, 0⟩ ∧
    (⟨1, 0, 0⟩ : Vec3) ≠ ⟨-1, 0, 0⟩ := by
  have hcode : Mat3.mulVec
      (Mat3.mul (yTurn turnRightTick.mCtrl 0.625 turnRightTick.mCam)
        (xTurn turnRightTick.mCtrl 0.625))
      turnRightTick.mCam.dir = ⟨1, 0, 0⟩ := by
    rw [turnRight_yTurn, turnRight_xTurn]
    show Mat3.mulVec _ forwardCamera.dir = _
    simp [Mat3.mulVec, Mat3.mul, Vec3.dot, forwardCamera]
  refine ⟨turnRight_length, hcode, ?_, ?_, ?_⟩
  · rw [turnRight_yTurn, turnRight_claimedYaw]
    show Mat3.mulVec _ forwardCamera.dir = _
    simp [Mat3.mulVec, Mat3.mul, Vec3.dot, forwardCamera]
  · have hstep : (rightStickStep turnRightTick.mCtrl 0.625 turnRightTick.mCam).dir
        = ⟨1, 0, 0⟩ := by
      unfold rightStickStep
      rw [if_pos turnRight_length]
      show normalize _ = _
      rw [hcode]
      exact normalize_of_dot_self_one _ (by simp [Vec3.dot])
    rw [updateTick_blocks]
    have hb : ¬ turnRightTick.mCtrl.back = ButtonState.UP := by decide
    rw [if_neg hb]
    show normalize (cameraBeforeMenu turnRightTick ⟨0.625⟩).dir = _
    rw [(cameraBeforeMenu_dir_up _ _).1]
    show normalize (rightStickStep turnRightTick.mCtrl 0.625 turnRightTick.mCam).dir = _
    rw [hstep]
    exact normalize_of_dot_self_one _ (by simp [Vec3.dot])
  · intro h
    have hx := congrArg Vec3.x h
    norm_num at hx

/-- C15, amended: in a tick whose right-stick length exceeds the stick deadzone,
the direction and up handed to the re-orthonormalisation are `P * (Y * dir)` and
`P * (Y * up)`, with `Y` the rotation about `(0, -1, 0)` by the angle
`rightStick.x * 0.8 * pi * delta`, which is the rotation about the world up axis
`(0, 1, 0)` by the negated angle, and `P` the rotation about
`normalize (cross (dir, up))` of the camera before the turn by the angle
`rightStick.y * 0.8 * pi * delta`; the later blocks of the tick keep the
direction and up this gives. -/
theorem turn_arguments (self : TestbedUpdateable) (updateInfo : UpdateInfo)
    (h : Vec2.length self.mCtrl.rightStick > self.mCtrl.stickDeadzone) :
    rightStickStep self.mCtrl updateInfo.tickTimeSeconds self.mCam =
      setDir self.mCam
        (Mat3.mulVec
          (rotation3 (normalize (Vec3.cross self.mCam.dir self.mCam.up))
            (self.mCtrl.rightStick.y * (0.8 * Real.pi) * updateInfo.tickTimeSeconds))
          (Mat3.mulVec
            (rotation3 ⟨0, -1, 0⟩
              (self.mCtrl.rightStick.x * (0.8 * Real.pi) * updateInfo.tickTimeSeconds))
            self.mCam.dir))
        (Mat3.mulVec
          (rotation3 (normalize (Vec3.cross self.mCam.dir self.mCam.up))
            (self.mCtrl.rightStick.y * (0.8 * Real.pi) * updateInfo.tickTimeSeconds))
          (Mat3.mulVec
            (rotation3 ⟨0, -1, 0⟩
              (self.mCtrl.rightStick.x * (0.8 * Real.pi) * updateInfo.tickTimeSeconds))
            self.mCam.up)) ∧
    rotation3 ⟨0, -1, 0⟩
        (self.mCtrl.rightStick.x * (0.8 * Real.pi) * updateInfo.tickTimeSeconds) =
      rotation3 worldUp
        (-(self.mCtrl.rightStick.x * (0.8 * Real.pi) * updateInfo.tickTimeSeconds)) ∧
    (cameraBeforeMenu self updateInfo).dir =
      (rightStickStep self.mCtrl updateInfo.tickTimeSeconds self.mCam).dir ∧
    (cameraBeforeMenu self updateInfo).up =
      (rightStickStep self.mCtrl updateInfo.tickTimeSeconds self.mCam).up :=
  ⟨rightStickStep_turn _ _ _ h, rotation3_neg_worldUp _,
    (cameraBeforeMenu_dir_up self updateInfo).1, (cameraBeforeMenu_dir_up self updateInfo).2⟩

/-- Instance of amended C15: the right stick at `(1, 0)` from the forward camera
with a tick time of `0.625`. -/
theorem turn_arguments_witness :
    Vec2.length turnRightTick.mCtrl.rightStick > turnRightTick.mCtrl.stickDeadzone ∧
    rightStickStep turnRightTick.mCtrl (UpdateInfo.mk 0.625).tickTimeSeconds turnRightTick.mCam =
      setDir turnRightTick.mCam
        (Mat3.mulVec
          (rotation3 (normalize (Vec3.cross turnRightTick.mCam.dir turnRightTick.mCam.up))
            (turnRightTick.mCtrl.rightStick.y * (0.8 * Real.pi)
              * (UpdateInfo.mk 0.625).tickTimeSeconds))
          (Mat3.mulVec
            (rotation3 ⟨0, -1, 0⟩
              (turnRightTick.mCtrl.rightStick.x * (0.8 * Real.pi)
                * (UpdateInfo.mk 0.625).tickTimeSeconds))
            turnRightTick.mCam.dir))
        (Mat3.mulVec
          (rotation3 (normalize (Vec3.cross turnRightTick.mCam.dir turnRightTick.mCam.up))
            (turnRightTick.mCtrl.rightStick.y * (0.8 * Real.pi)
              * (UpdateInfo.mk 0.625).tickTimeSeconds))
          (Mat3.mulVec
            (rotation3 ⟨0, -1, 0⟩
              (turnRightTick.mCtrl.rightStick.x * (0.8 * Real.pi)
                * (UpdateInfo.mk 0.625).tickTimeSeconds))
            turnRightTick.mCam.up)) :=
  ⟨turnRight_length, (turn_arguments turnRightTick ⟨0.625⟩ turnRight_length).1⟩

/-! ## The final re-orthonormalisation -/

theorem normalize_of_length_one (v : Vec3) (h : Vec3.length v = 1) : normalize v = v := by
  unfold normalize Vec3.divide
  rw [h]
  simp

theorem updateTick_no_op_camera (self : TestbedUpdateable) (updateInfo : UpdateInfo)
    (h : (updateTick self updateInfo).1 = UpdateOp.NO_OP) :
    (updateTick self updateInfo).2.mCam =
      setDir (cameraBeforeMenu self updateInfo) (cameraBeforeMenu self updateInfo).dir
        ⟨0, 1, 0⟩ := by
  have hb : ¬ self.mCtrl.back = ButtonState.UP := by
    intro hb
    rw [updateTick_directive, if_pos hb] at h
    exact UpdateOp.noConfusion h
  rw [updateTick_blocks, if_neg hb]

theorem updateTick_quit_camera (self : TestbedUpdateable) (updateInfo : UpdateInfo)
    (hb : self.mCtrl.back = ButtonState.UP) :
    (updateTick self updateInfo).2.mCam = cameraBeforeMenu self updateInfo := by
  rw [updateTick_blocks, if_pos hb]

theorem cameraBeforeMenu_at_rest (cam : CameraData) (ctrl : GameControllerState)
    (updateInfo : UpdateInfo)
    (hr : ctrl.rightStick = ⟨0, 0⟩) (hl : ctrl.leftStick = ⟨0, 0⟩) (hd : ctrl.stickDeadzone = 0)
    (hls : ctrl.leftShoulder = ButtonState.NOT_PRESSED)
    (hrs : ctrl.rightShoulder = ButtonState.NOT_PRESSED) :
    cameraBeforeMenu (testbedWith cam ctrl) updateInfo = cam := by
  unfold cameraBeforeMenu
  have h1 : Vec2.length (testbedWith cam ctrl).mCtrl.rightStick
      ≤ (testbedWith cam ctrl).mCtrl.stickDeadzone := by
    show Vec2.length ctrl.rightStick ≤ ctrl.stickDeadzone
    rw [hr, hd, Vec2.length_zero]
  have h2 : Vec2.length (testbedWith cam ctrl).mCtrl.leftStick
      ≤ (testbedWith cam ctrl).mCtrl.stickDeadzone := by
    show Vec2.length ctrl.leftStick ≤ ctrl.stickDeadzone
    rw [hl, hd, Vec2.length_zero]
  rw [rightStickStep_inside _ _ _ h1, leftStickStep_inside _ _ _ h2]
  unfold shoulderStep
  have h3 : ¬((testbedWith cam ctrl).mCtrl.leftShoulder = ButtonState.DOWN ∨
      (testbedWith cam ctrl).mCtrl.leftShoulder = ButtonState.HELD) := by
    show ¬(ctrl.leftShoulder = ButtonState.DOWN ∨ ctrl.leftShoulder = ButtonState.HELD)
    rw [hls]
    decide
  have h4 : ¬((testbedWith cam ctrl).mCtrl.rightShoulder = ButtonState.DOWN ∨
      (testbedWith cam ctrl).mCtrl.rightShoulder = ButtonState.HELD) := by
    show ¬(ctrl.rightShoulder = ButtonState.DOWN ∨ ctrl.rightShoulder = ButtonState.HELD)
    rw [hrs]
    decide
  rw [if_neg h3, if_neg h4]
  rfl

theorem rolled_final_up :
    (updateTick (testbedWith rolledCamera restState) ⟨0.1⟩).2.mCam.up = ⟨0, 1, 0⟩ := by
  have hn : (updateTick (testbedWith rolledCamera restState) ⟨0.1⟩).1 = UpdateOp.NO_OP := by
    rw [updateTick_directive]
    rfl
  rw [updateTick_no_op_camera _ _ hn,
    cameraBeforeMenu_at_rest rolledCamera restState ⟨0.1⟩ rfl rfl rfl rfl rfl]
  show normalize (Vec3.sub ⟨0, 1, 0⟩
    (Vec3.scale (normalize rolledCamera.dir) (Vec3.dot ⟨0, 1, 0⟩ (normalize rolledCamera.dir))))
    = _
  have hd : normalize rolledCamera.dir = ⟨0, 0, -1⟩ :=
    normalize_of_dot_self_one _ (by simp [Vec3.dot, rolledCamera, forwardCamera])
  rw [hd]
  have hw : Vec3.sub ⟨0, 1, 0⟩ (Vec3.scale ⟨0, 0, -1⟩ (Vec3.dot ⟨0, 1, 0⟩ ⟨0, 0, -1⟩))
      = ⟨0, 1, 0⟩ := by
    simp [Vec3.sub, Vec3.scale, Vec3.dot]
  rw [hw]
  exact normalize_of_dot_self_one _ (by simp [Vec3.dot])

theorem rolled_claimed_up :
    reorthonormalisedUp rolledCamera.up rolledCamera.dir = ⟨1, 0, 0⟩ := by
  unfold reorthonormalisedUp
  have hw : Vec3.sub rolledCamera.up
      (Vec3.scale rolledCamera.dir (Vec3.dot rolledCamera.up rolledCamera.dir)) = ⟨1, 0, 0⟩ := by
    simp [Vec3.sub, Vec3.scale, Vec3.dot, rolledCamera, forwardCamera]
  rw [hw]
  exact normalize_of_dot_self_one _ (by simp [Vec3.dot])

theorem tilted_claimed_up :
    reorthonormalisedUp tiltedCamera.up tiltedCamera.dir = ⟨0, 0.8, 0.6⟩ := by
  unfold reorthonormalisedUp
  have hw : Vec3.sub tiltedCamera.up
      (Vec3.scale tiltedCamera.dir (Vec3.dot tiltedCamera.up tiltedCamera.dir))
      = ⟨0, 0.64, 0.48⟩ := by
    simp only [Vec3.sub, Vec3.scale, Vec3.dot, tiltedCamera, forwardCamera]
    ext <;> norm_num
  rw [hw]
  have hl : Vec3.length ⟨0, 0.64, 0.48⟩ = 0.8 := by
    unfold Vec3.length Vec3.dot
    have h : (0 : ℝ) * 0 + 0.64 * 0.64 + 0.48 * 0.48 = 0.8 * 0.8 := by norm_num
    rw [h, Real.sqrt_mul_self (by norm_num)]
  unfold normalize Vec3.divide
  rw [hl]
  ext <;> norm_num

/-- C16, as stated, fails, twice.  A tick at rest from the rolled camera
(direction `(0, 0, -1)`, up `(1, 0, 0)`) returns `NO_OP` and ends with the up
`(0, 1, 0)`, while `normalize (u - dot (u, d) * d)` of the camera's own vectors
is `(1, 0, 0)`.  A tick with back `UP` from the tilted camera (direction
`(0, 0.6, -0.8)`, up `(0, 1, 0)`) returns `QUIT` and ends with the up
`(0, 1, 0)` untouched, while `normalize (u - dot (u, d) * d)` is
`(0, 0.8, 0.6)`. -/
theorem final_reorthonormalisation_counterexample :
    ((updateTick (testbedWith rolledCamera restState) ⟨0.1⟩).1 = UpdateOp.NO_OP ∧
      cameraBeforeMenu (testbedWith rolledCamera restState) ⟨0.1⟩ = rolledCamera ∧
      (updateTick (testbedWith rolledCamera restState) ⟨0.1⟩).2.mCam.up = ⟨0, 1, 0⟩ ∧
      reorthonormalisedUp rolledCamera.up rolledCamera.dir = ⟨1, 0, 0⟩ ∧
      (⟨0, 1, 0⟩ : Vec3) ≠ ⟨1, 0, 0⟩) ∧
    ((updateTick (testbedWith tiltedCamera { restState with back := .UP }) ⟨0.1⟩).1
        = UpdateOp.QUIT ∧
      cameraBeforeMenu (testbedWith tiltedCamera { restState with back := .UP }) ⟨0.1⟩
        = tiltedCamera ∧
      (updateTick (testbedWith tiltedCamera { restState with back := .UP }) ⟨0.1⟩).2.mCam.up
        = ⟨0, 1, 0⟩ ∧
      reorthonormalisedUp tiltedCamera.up tiltedCamera.dir = ⟨0, 0.8, 0.6⟩ ∧
      (⟨0, 1, 0⟩ : Vec3) ≠ ⟨0, 0.8, 0.6⟩) := by
  refine ⟨⟨?_, cameraBeforeMenu_at_rest rolledCamera restState ⟨0.1⟩ rfl rfl rfl rfl rfl,
    rolled_final_up, rolled_claimed_up, ?_⟩, ⟨?_, ?_, ?_, tilted_claimed_up, ?_⟩⟩
  · rw [updateTick_directive]
    rfl
  · intro h
    have hx := congrArg Vec3.x h
    norm_num at hx
  · rw [updateTick_directive]
    rfl
  · exact cameraBeforeMenu_at_rest tiltedCamera _ ⟨0.1⟩ rfl rfl rfl rfl rfl
  · rw [updateTick_quit_camera _ _ rfl,
      cameraBeforeMenu_at_rest tiltedCamera _ ⟨0.1⟩ rfl rfl rfl rfl rfl]
    rfl
  · intro h
    have hz := congrArg Vec3.z h
    norm_num at hz

/-- C16, amended: on every `updateTick` call that returns `NO_OP`, whether or not
turning occurred, the last step re-orthonormalises the camera against the world
up axis: with `d` the direction the earlier blocks of the tick computed, the
final direction is `normalize d` (which is `d` when `d` has unit length) and the
final up is `normalize (W - dot (W, d') * d')` with `W = (0, 1, 0)` and `d'` the
final direction; the position stays as the earlier blocks computed it. -/
theorem final_reorthonormalisation (self : TestbedUpdateable) (updateInfo : UpdateInfo)
    (h : (updateTick self updateInfo).1 = UpdateOp.NO_OP) :
    (updateTick self updateInfo).2.mCam.dir = normalize (cameraBeforeMenu self updateInfo).dir ∧
    (Vec3.length (cameraBeforeMenu self updateInfo).dir = 1 →
      (updateTick self updateInfo).2.mCam.dir = (cameraBeforeMenu self updateInfo).dir) ∧
    (updateTick self updateInfo).2.mCam.up =
      reorthonormalisedUp worldUp (updateTick self updateInfo).2.mCam.dir ∧
    (updateTick self updateInfo).2.mCam.pos = (cameraBeforeMenu self updateInfo).pos := by
  rw [updateTick_no_op_camera self updateInfo h]
  refine ⟨rfl, fun hl => ?_, rfl, rfl⟩
  show normalize _ = _
  exact normalize_of_length_one _ hl

/-- Instance of amended C16: a tick at rest from the rolled camera. -/
theorem final_reorthonormalisation_witness :
    (updateTick (testbedWith rolledCamera restState) ⟨0.1⟩).1 = UpdateOp.NO_OP ∧
    (updateTick (testbedWith rolledCamera restState) ⟨0.1⟩).2.mCam.up =
      reorthonormalisedUp worldUp
        (updateTick (testbedWith rolledCamera restState) ⟨0.1⟩).2.mCam.dir :=
  ⟨by rw [updateTick_directive]; rfl,
   (final_reorthonormalisation (testbedWith rolledCamera restState) ⟨0.1⟩
      (by rw [updateTick_directive]; rfl)).2.2.1⟩

theorem Vec3.self_dot_nonneg (v : Vec3) : 0 ≤ Vec3.dot v v := by
  unfold Vec3.dot
  nlinarith [mul_self_nonneg v.x, mul_self_nonneg v.y, mul_self_nonneg v.z]

theorem Vec3.zero_le_length (v : Vec3) : 0 ≤ Vec3.length v := Real.sqrt_nonneg _

theorem Vec3.length_sq_eq_dot (v : Vec3) : Vec3.length v * Vec3.length v = Vec3.dot v v :=
  Real.mul_self_sqrt (Vec3.self_dot_nonneg v)

theorem normalize_of_length_zero (v : Vec3) (h : Vec3.length v = 0) :
    normalize v = ⟨0, 0, 0⟩ := by
  unfold normalize Vec3.divide
  rw [h]
  simp

theorem dot_normalize_self (v : Vec3) (h : Vec3.length v ≠ 0) :
    Vec3.dot (normalize v) (normalize v) = 1 := by
  have hL := Vec3.length_sq_eq_dot v
  unfold normalize Vec3.divide
  unfold Vec3.dot at hL ⊢
  simp only
  field_simp
  linarith

theorem dot_normalize_left (v w : Vec3) :
    Vec3.dot (normalize v) w = Vec3.dot v w / Vec3.length v := by
  unfold normalize Vec3.divide Vec3.dot
  simp only
  ring

theorem not_parallel_of_normalize (d : Vec3) (h : ¬ parallelToWorldUp (normalize d)) :
    Vec3.length d ≠ 0 := by
  intro h0
  apply h
  rw [normalize_of_length_zero d h0]
  simp [parallelToWorldUp, Vec3.cross, worldUp]

theorem reorthonormalisedUp_worldUp_y_pos (D : Vec3) (hunit : Vec3.dot D D = 1)
    (hpar : ¬ parallelToWorldUp D) : 0 < (reorthonormalisedUp worldUp D).y := by
  have hxz : 0 < D.x * D.x + D.z * D.z := by
    by_contra hle
    have hsum : D.x * D.x + D.z * D.z = 0 :=
      le_antisymm (not_lt.mp hle) (by nlinarith [mul_self_nonneg D.x, mul_self_nonneg D.z])
    have hx : D.x = 0 := by nlinarith [mul_self_nonneg D.x, mul_self_nonneg D.z]
    have hz : D.z = 0 := by nlinarith [mul_self_nonneg D.x, mul_self_nonneg D.z]
    apply hpar
    simp [parallelToWorldUp, Vec3.cross, worldUp, hx, hz]
  have hwy : (Vec3.sub worldUp (Vec3.scale D (Vec3.dot worldUp D))).y
      = D.x * D.x + D.z * D.z := by
    unfold Vec3.dot at hunit
    simp only [Vec3.sub, Vec3.scale, Vec3.dot, worldUp]
    linarith
  unfold reorthonormalisedUp normalize Vec3.divide
  show 0 < (Vec3.sub worldUp (Vec3.scale D (Vec3.dot worldUp D))).y /
    Vec3.length (Vec3.sub worldUp (Vec3.scale D (Vec3.dot worldUp D)))
  generalize Vec3.sub worldUp (Vec3.scale D (Vec3.dot worldUp D)) = w at hwy ⊢
  have hlen : 0 < Vec3.length w := by
    unfold Vec3.length Vec3.dot
    apply Real.sqrt_pos.mpr
    rw [hwy]
    nlinarith [mul_self_nonneg w.x, mul_self_nonneg w.z, mul_pos hxz hxz]
  rw [hwy]
  exact div_pos hxz hlen

/-- C17, amended: after every `updateTick` call that returns `NO_OP`, the camera's
up is `normalize (W - dot (W, direction) * direction)` with `W = (0, 1, 0)` and
`direction` the resulting direction; over exact real arithmetic, when that
direction is not parallel to `W` the resulting up has a strictly positive `y`;
and in a tick without turning, the resulting direction and up do not depend on
the incoming up vector. -/
theorem up_from_direction (self : TestbedUpdateable) (updateInfo : UpdateInfo)
    (h : (updateTick self updateInfo).1 = UpdateOp.NO_OP) :
    (updateTick self updateInfo).2.mCam.up =
      normalize (Vec3.sub worldUp
        (Vec3.scale (updateTick self updateInfo).2.mCam.dir
          (Vec3.dot worldUp (updateTick self updateInfo).2.mCam.dir))) ∧
    (¬ parallelToWorldUp (updateTick self updateInfo).2.mCam.dir →
      0 < (updateTick self updateInfo).2.mCam.up.y) ∧
    (∀ up' : Vec3, Vec2.length self.mCtrl.rightStick ≤ self.mCtrl.stickDeadzone →
      (updateTick { self with mCam := { self.mCam with up := up' } } updateInfo).2.mCam.dir =
          (updateTick self updateInfo).2.mCam.dir ∧
        (updateTick { self with mCam := { self.mCam with up := up' } } updateInfo).2.mCam.up =
          (updateTick self updateInfo).2.mCam.up) := by
  have hcam := updateTick_no_op_camera self updateInfo h
  refine ⟨by rw [hcam]; rfl, fun hpar => ?_, fun up' hr => ?_⟩
  · rw [hcam] at hpar ⊢
    have hpar' : ¬ parallelToWorldUp (normalize (cameraBeforeMenu self updateInfo).dir) := hpar
    have hne := not_parallel_of_normalize _ hpar'
    exact reorthonormalisedUp_worldUp_y_pos _ (dot_normalize_self _ hne) hpar'
  · have h' : (updateTick { self with mCam := { self.mCam with up := up' } } updateInfo).1
        = UpdateOp.NO_OP := by
      rw [updateTick_directive] at h ⊢
      exact h
    have hcam' := updateTick_no_op_camera _ updateInfo h'
    have hd : (cameraBeforeMenu { self with mCam := { self.mCam with up := up' } }
        updateInfo).dir = (cameraBeforeMenu self updateInfo).dir := by
      rw [(cameraBeforeMenu_dir_up _ _).1, (cameraBeforeMenu_dir_up _ _).1,
        rightStickStep_inside _ _ _ hr]
      have hr' : Vec2.length
          ({ self with mCam := { self.mCam with up := up' } } : TestbedUpdateable).mCtrl.rightStick
          ≤ ({ self with mCam := { self.mCam with up := up' } } :
            TestbedUpdateable).mCtrl.stickDeadzone := hr
      rw [rightStickStep_inside _ _ _ hr']
    rw [hcam, hcam']
    constructor
    · show normalize _ = normalize _
      rw [hd]
    · show reorthonormalisedUp ⟨0, 1, 0⟩ (normalize _) = reorthonormalisedUp ⟨0, 1, 0⟩ (normalize _)
      rw [hd]

theorem rolled_no_op :
    (updateTick (testbedWith rolledCamera restState) ⟨0.1⟩).1 = UpdateOp.NO_OP := by
  rw [updateTick_directive]
  rfl

theorem rolled_final_dir :
    (updateTick (testbedWith rolledCamera restState) ⟨0.1⟩).2.mCam.dir = ⟨0, 0, -1⟩ := by
  rw [updateTick_no_op_camera _ _ rolled_no_op,
    cameraBeforeMenu_at_rest rolledCamera restState ⟨0.1⟩ rfl rfl rfl rfl rfl]
  show normalize rolledCamera.dir = _
  exact normalize_of_dot_self_one _ (by simp [Vec3.dot, rolledCamera, forwardCamera])

/-- Instance of amended C17: a tick at rest from the rolled camera ends with the up
computed from the direction `(0, 0, -1)`, which is not parallel to the world up
axis, and the up has a positive `y`. -/
theorem up_from_direction_witness :
    ((updateTick (testbedWith rolledCamera restState) ⟨0.1⟩).1 = UpdateOp.NO_OP ∧
      ¬ parallelToWorldUp (updateTick (testbedWith rolledCamera restState) ⟨0.1⟩).2.mCam.dir) ∧
    ((updateTick (testbedWith rolledCamera restState) ⟨0.1⟩).2.mCam.up =
        normalize (Vec3.sub worldUp
          (Vec3.scale (updateTick (testbedWith rolledCamera restState) ⟨0.1⟩).2.mCam.dir
            (Vec3.dot worldUp
              (updateTick (testbedWith rolledCamera restState) ⟨0.1⟩).2.mCam.dir))) ∧
      0 < (updateTick (testbedWith rolledCamera restState) ⟨0.1⟩).2.mCam.up.y) := by
  have hpar : ¬ parallelToWorldUp
      (updateTick (testbedWith rolledCamera restState) ⟨0.1⟩).2.mCam.dir := by
    rw [rolled_final_dir]
    intro hp
    have hx := congrArg Vec3.x hp
    simp [Vec3.cross, worldUp] at hx
  exact ⟨⟨rolled_no_op, hpar⟩,
    (up_from_direction (testbedWith rolledCamera restState) ⟨0.1⟩ rolled_no_op).1,
    (up_from_direction (testbedWith rolledCamera restState) ⟨0.1⟩ rolled_no_op).2.1 hpar⟩

/-! ## The orthonormality invariant -/

theorem Vec3.length_eq_one_iff (v : Vec3) : Vec3.length v = 1 ↔ Vec3.dot v v = 1 := by
  unfold Vec3.length
  constructor
  · intro h
    have h2 := Real.mul_self_sqrt (Vec3.self_dot_nonneg v)
    rw [h] at h2
    linarith
  · intro h
    rw [h, Real.sqrt_one]

/-- C13 fails on the code for a camera that looks straight up: direction
`(0, 1, 0)` and up `(0, 0, 1)` are unit length and orthogonal; a tick at rest
returns `NO_OP`, keeps the direction and hands `W - dot (W, dir) * dir`, the zero
vector, to `normalize`; the resulting up is the zero vector here (a division by
the length zero), which is not unit length. -/
theorem orthonormal_lost_looking_up :
    orthonormalCamera (testbedWith verticalCamera restState).mCam ∧
    (updateTick (testbedWith verticalCamera restState) ⟨0.1⟩).1 = UpdateOp.NO_OP ∧
    (updateTick (testbedWith verticalCamera restState) ⟨0.1⟩).2.mCam.dir = ⟨0, 1, 0⟩ ∧
    Vec3.sub worldUp
      (Vec3.scale (updateTick (testbedWith verticalCamera restState) ⟨0.1⟩).2.mCam.dir
        (Vec3.dot worldUp
          (updateTick (testbedWith verticalCamera restState) ⟨0.1⟩).2.mCam.dir))
      = ⟨0, 0, 0⟩ ∧
    (updateTick (testbedWith verticalCamera restState) ⟨0.1⟩).2.mCam.up = ⟨0, 0, 0⟩ ∧
    Vec3.length (updateTick (testbedWith verticalCamera restState) ⟨0.1⟩).2.mCam.up ≠ 1 ∧
    ¬ orthonormalCamera (updateTick (testbedWith verticalCamera restState) ⟨0.1⟩).2.mCam := by
  have hn : (updateTick (testbedWith verticalCamera restState) ⟨0.1⟩).1 = UpdateOp.NO_OP := by
    rw [updateTick_directive]
    rfl
  have hcam := updateTick_no_op_camera _ _ hn
  rw [cameraBeforeMenu_at_rest verticalCamera restState ⟨0.1⟩ rfl rfl rfl rfl rfl] at hcam
  have hdir : (updateTick (testbedWith verticalCamera restState) ⟨0.1⟩).2.mCam.dir
      = ⟨0, 1, 0⟩ := by
    rw [hcam]
    show normalize verticalCamera.dir = _
    exact normalize_of_dot_self_one _ (by simp [Vec3.dot, verticalCamera])
  have hw : Vec3.sub worldUp (Vec3.scale ⟨0, 1, 0⟩ (Vec3.dot worldUp ⟨0, 1, 0⟩))
      = ⟨0, 0, 0⟩ := by
    simp [Vec3.sub, Vec3.scale, Vec3.dot, worldUp]
  have hzero : Vec3.length ⟨0, 0, 0⟩ = 0 := by
    simp [Vec3.length, Vec3.dot]
  have hup : (updateTick (testbedWith verticalCamera restState) ⟨0.1⟩).2.mCam.up
      = ⟨0, 0, 0⟩ := by
    have h1 : (updateTick (testbedWith verticalCamera restState) ⟨0.1⟩).2.mCam.up =
        normalize (Vec3.sub worldUp
          (Vec3.scale (updateTick (testbedWith verticalCamera restState) ⟨0.1⟩).2.mCam.dir
            (Vec3.dot worldUp
              (updateTick (testbedWith verticalCamera restState) ⟨0.1⟩).2.mCam.dir))) := by
      rw [hcam]
      rfl
    rw [h1, hdir, hw]
    exact normalize_of_length_zero _ hzero
  have hlen : Vec3.length (updateTick (testbedWith verticalCamera restState) ⟨0.1⟩).2.mCam.up
      ≠ 1 := by
    rw [hup, hzero]
    norm_num
  refine ⟨⟨?_, ?_, ?_⟩, hn, hdir, ?_, hup, hlen, fun ho => hlen ho.2.1⟩
  · exact (Vec3.length_eq_one_iff _).mpr (by simp [Vec3.dot, testbedWith, verticalCamera])
  · exact (Vec3.length_eq_one_iff _).mpr
      (by simp [Vec3.dot, testbedWith, verticalCamera, forwardCamera])
  · simp [Vec3.dot, testbedWith, verticalCamera, forwardCamera]
  · rw [hdir]
    exact hw

theorem rotation3_preserves_dot (axis : Vec3) (angle : ℝ)
    (h : Vec3.dot (normalize axis) (normalize axis) = 1) (v w : Vec3) :
    Vec3.dot (Mat3.mulVec (rotation3 axis angle) v) (Mat3.mulVec (rotation3 axis angle) w)
      = Vec3.dot v w := by
  unfold rotation3
  generalize normalize axis = r at h ⊢
  have hcs := Real.cos_sq_add_sin_sq angle
  generalize Real.cos angle = c at hcs ⊢
  generalize Real.sin angle = s at hcs ⊢
  simp only [Mat3.mulVec, Vec3.dot] at h ⊢
  linear_combination
    ((v.x * w.x + v.y * w.y + v.z * w.z) * s ^ 2 +
      (1 - c) ^ 2 * (v.x * r.x + v.y * r.y + v.z * r.z) * (w.x * r.x + w.y * r.y + w.z * r.z)) * h
    + ((v.x * w.x + v.y * w.y + v.z * w.z) -
      (v.x * r.x + v.y * r.y + v.z * r.z) * (w.x * r.x + w.y * r.y + w.z * r.z)) * hcs

theorem cross_dot_self (d u : Vec3) :
    Vec3.dot (Vec3.cross d u) (Vec3.cross d u) =
      Vec3.dot d d * Vec3.dot u u - Vec3.dot d u * Vec3.dot d u := by
  simp only [Vec3.dot, Vec3.cross]
  ring

theorem setDir_orthonormal (cam : CameraData) (a b : Vec3)
    (ha : Vec3.dot a a = 1) (hb : Vec3.dot b b = 1) (hab : Vec3.dot a b = 0) :
    (setDir cam a b).dir = a ∧ (setDir cam a b).up = b := by
  have hna := normalize_of_dot_self_one a ha
  refine ⟨hna, ?_⟩
  show normalize (Vec3.sub b (Vec3.scale (normalize a) (Vec3.dot b (normalize a)))) = b
  rw [hna]
  have hba : Vec3.dot b a = 0 := by
    unfold Vec3.dot at hab ⊢
    linarith
  have hw : Vec3.sub b (Vec3.scale a (Vec3.dot b a)) = b := by
    rw [hba]
    simp [Vec3.sub, Vec3.scale]
  rw [hw]
  exact normalize_of_dot_self_one b hb

theorem rightStickStep_orthonormal (mCtrl : GameControllerState) (delta : ℝ)
    (mCam : CameraData) (h : orthonormalCamera mCam) :
    orthonormalCamera (rightStickStep mCtrl delta mCam) := by
  obtain ⟨hd, hu, hdu⟩ := h
  have hd' := (Vec3.length_eq_one_iff _).mp hd
  have hu' := (Vec3.length_eq_one_iff _).mp hu
  unfold rightStickStep
  split_ifs with hturn
  · have hright : Vec3.dot (normalize (normalize (Vec3.cross mCam.dir mCam.up)))
        (normalize (normalize (Vec3.cross mCam.dir mCam.up))) = 1 := by
      have hc : Vec3.dot (Vec3.cross mCam.dir mCam.up) (Vec3.cross mCam.dir mCam.up) = 1 := by
        rw [cross_dot_self, hd', hu', hdu]
        norm_num
      rw [normalize_of_dot_self_one _ hc, normalize_of_dot_self_one _ hc]
      exact hc
    have hyaw : Vec3.dot (normalize (⟨0, -1, 0⟩ : Vec3)) (normalize ⟨0, -1, 0⟩) = 1 := by
      rw [normalize_neg_worldUp]
      simp [Vec3.dot]
    have hpres : ∀ v w : Vec3,
        Vec3.dot (Mat3.mulVec (Mat3.mul (yTurn mCtrl delta mCam) (xTurn mCtrl delta)) v)
          (Mat3.mulVec (Mat3.mul (yTurn mCtrl delta mCam) (xTurn mCtrl delta)) w)
          = Vec3.dot v w := by
      intro v w
      rw [Mat3.mulVec_mul, Mat3.mulVec_mul]
      unfold yTurn xTurn
      rw [rotation3_preserves_dot _ _ hright, rotation3_preserves_dot _ _ hyaw]
    obtain ⟨e1, e2⟩ := setDir_orthonormal mCam _ _
      ((hpres _ _).trans hd') ((hpres _ _).trans hu') ((hpres _ _).trans hdu)
    refine ⟨?_, ?_, ?_⟩
    · rw [e1]
      exact (Vec3.length_eq_one_iff _).mpr ((hpres _ _).trans hd')
    · rw [e2]
      exact (Vec3.length_eq_one_iff _).mpr ((hpres _ _).trans hu')
    · rw [e1, e2]
      exact (hpres _ _).trans hdu
  · exact ⟨hd, hu, hdu⟩

theorem cameraBeforeMenu_orthonormal (self : TestbedUpdateable) (updateInfo : UpdateInfo)
    (h : orthonormalCamera self.mCam) :
    orthonormalCamera (cameraBeforeMenu self updateInfo) := by
  have hr := rightStickStep_orthonormal self.mCtrl updateInfo.tickTimeSeconds self.mCam h
  unfold orthonormalCamera at hr ⊢
  rw [(cameraBeforeMenu_dir_up self updateInfo).1, (cameraBeforeMenu_dir_up self updateInfo).2]
  exact hr

theorem reorthonormalisedUp_worldUp_orthonormal (D : Vec3) (hunit : Vec3.dot D D = 1)
    (hpar : ¬ parallelToWorldUp D) :
    Vec3.length (reorthonormalisedUp worldUp D) = 1 ∧
      Vec3.dot D (reorthonormalisedUp worldUp D) = 0 := by
  have hxz : D.x ≠ 0 ∨ D.z ≠ 0 := by
    by_contra hn
    rw [not_or, not_not, not_not] at hn
    apply hpar
    simp [parallelToWorldUp, Vec3.cross, worldUp, hn.1, hn.2]
  have hwne : Vec3.length (Vec3.sub worldUp (Vec3.scale D (Vec3.dot worldUp D))) ≠ 0 := by
    intro h0
    have h1 := Vec3.length_sq_eq_dot (Vec3.sub worldUp (Vec3.scale D (Vec3.dot worldUp D)))
    rw [h0] at h1
    simp only [Vec3.sub, Vec3.scale, Vec3.dot, worldUp] at h1 hunit
    rcases hxz with hx | hz
    · have := mul_self_pos.mpr hx
      nlinarith [mul_self_nonneg (D.x * D.y), mul_self_nonneg (D.z * D.y),
        mul_self_nonneg (1 - D.y * D.y), mul_self_nonneg D.z, mul_self_nonneg D.y]
    · have := mul_self_pos.mpr hz
      nlinarith [mul_self_nonneg (D.x * D.y), mul_self_nonneg (D.z * D.y),
        mul_self_nonneg (1 - D.y * D.y), mul_self_nonneg D.x, mul_self_nonneg D.y]
  unfold reorthonormalisedUp
  constructor
  · exact (Vec3.length_eq_one_iff _).mpr (dot_normalize_self _ hwne)
  · have hsymm : Vec3.dot D (normalize (Vec3.sub worldUp (Vec3.scale D (Vec3.dot worldUp D))))
        = Vec3.dot (normalize (Vec3.sub worldUp (Vec3.scale D (Vec3.dot worldUp D)))) D := by
      unfold Vec3.dot
      ring
    rw [hsymm, dot_normalize_left]
    have hzero : Vec3.dot (Vec3.sub worldUp (Vec3.scale D (Vec3.dot worldUp D))) D = 0 := by
      simp only [Vec3.sub, Vec3.scale, Vec3.dot, worldUp] at hunit ⊢
      linear_combination (-D.y) * hunit
    rw [hzero, zero_div]

/-- The part of the orthonormality invariant that holds on the code: from a camera
with unit, mutually orthogonal direction and up, `updateTick` ends with such a
camera when it returns `QUIT`, and when the direction the tick computed is not
parallel to the world up axis. -/
theorem orthonormal_preserved_off_axis (self : TestbedUpdateable) (updateInfo : UpdateInfo)
    (h : orthonormalCamera self.mCam)
    (hcase : self.mCtrl.back = ButtonState.UP ∨
      ¬ parallelToWorldUp (cameraBeforeMenu self updateInfo).dir) :
    orthonormalCamera (updateTick self updateInfo).2.mCam := by
  have hcb := cameraBeforeMenu_orthonormal self updateInfo h
  by_cases hb : self.mCtrl.back = ButtonState.UP
  · rw [updateTick_quit_camera self updateInfo hb]
    exact hcb
  · have hpar : ¬ parallelToWorldUp (cameraBeforeMenu self updateInfo).dir :=
      hcase.resolve_left hb
    have hn : (updateTick self updateInfo).1 = UpdateOp.NO_OP := by
      rw [updateTick_directive, if_neg hb]
    rw [updateTick_no_op_camera self updateInfo hn]
    obtain ⟨hd, _, _⟩ := hcb
    have hnd := normalize_of_length_one _ hd
    have hd' := (Vec3.length_eq_one_iff _).mp hd
    have hre := reorthonormalisedUp_worldUp_orthonormal _ hd' hpar
    refine ⟨?_, ?_, ?_⟩
    · show Vec3.length (normalize (cameraBeforeMenu self updateInfo).dir) = 1
      rw [hnd]
      exact hd
    · show Vec3.length (reorthonormalisedUp ⟨0, 1, 0⟩
        (normalize (cameraBeforeMenu self updateInfo).dir)) = 1
      rw [hnd]
      exact hre.1
    · show Vec3.dot (normalize (cameraBeforeMenu self updateInfo).dir)
        (reorthonormalisedUp ⟨0, 1, 0⟩ (normalize (cameraBeforeMenu self updateInfo).dir)) = 0
      rw [hnd]
      exact hre.2

/-! ## Updates without events and the frame of the update -/

theorem decay_button_idem (v : ButtonState) :
    changeUpToNotPressed (changeDownToHeld (changeUpToNotPressed (changeDownToHeld v))) =
      changeUpToNotPressed (changeDownToHeld v) := by
  cases v <;> rfl

theorem decay_button_rest_or_held (v : ButtonState) :
    changeUpToNotPressed (changeDownToHeld v) = ButtonState.NOT_PRESSED ∨
      changeUpToNotPressed (changeDownToHeld v) = ButtonState.HELD := by
  cases v <;> decide

theorem update_nil_eq (s : EmulatedGameController) :
    updateEmulatedController s [] = setSticks (upToNotPressedPass (downToHeldPass s)) := rfl

/-- C18: an update with an empty event list is idempotent on the whole emulator
state, both stick vectors included, and after it every tracked button is
`NOT_PRESSED` or `HELD`. -/
theorem update_nil_idempotent (s : EmulatedGameController) :
    updateEmulatedController (updateEmulatedController s []) [] =
      updateEmulatedController s [] ∧
    (∀ v ∈ trackedButtons (updateEmulatedController s []),
      v = ButtonState.NOT_PRESSED ∨ v = ButtonState.HELD) := by
  constructor
  · rw [update_nil_eq, update_nil_eq]
    simp only [setSticks, upToNotPressedPass, downToHeldPass, decay_button_idem]
  · intro v hv
    rw [update_nil_eq] at hv
    simp only [trackedButtons, setSticks, upToNotPressedPass, downToHeldPass, List.mem_cons,
      List.mem_singleton, List.not_mem_nil, or_false] at hv
    rcases hv with h | h | h | h | h | h | h | h | h | h | h | h | h | h | h | h | h | h | h |
      h | h | h | h | h <;> rw [h] <;> exact decay_button_rest_or_held _

theorem unboundPart_handleKeyDown (ec : EmulatedGameController) (k : Int) :
    unboundPart (handleKeyDown ec k) = unboundPart ec := by
  unfold handleKeyDown
  iterate 14 (refine apply_ite_eq unboundPart _ _ _ _ (fun _ => rfl) ?_)
  rfl

theorem unboundPart_handleKeyUp (ec : EmulatedGameController) (k : Int) :
    unboundPart (handleKeyUp ec k) = unboundPart ec := by
  unfold handleKeyUp
  iterate 14 (refine apply_ite_eq unboundPart _ _ _ _ (fun _ => rfl) ?_)
  rfl

theorem unboundPart_handleEvent (ec : EmulatedGameController) (e : SDL_Event) :
    unboundPart (handleEvent ec e) = unboundPart ec := by
  unfold handleEvent
  refine apply_ite_eq unboundPart _ _ _ _ (fun _ => unboundPart_handleKeyDown ec e.sym) ?_
  exact apply_ite_eq unboundPart _ _ _ _ (fun _ => unboundPart_handleKeyUp ec e.sym) rfl

theorem unboundPart_foldEvents (events : List SDL_Event) :
    ∀ ec : EmulatedGameController, unboundPart (foldEvents ec events) = unboundPart ec := by
  induction events with
  | nil => intro ec; rfl
  | cons e rest ih =>
    intro ec
    show unboundPart (foldEvents (handleEvent ec e) rest) = _
    rw [ih, unboundPart_handleEvent]

theorem unboundPart_update (ec : EmulatedGameController) (events : List SDL_Event) :
    unboundPart (updateEmulatedController ec events) =
      unboundPart (upToNotPressedPass (downToHeldPass ec)) := by
  unfold updateEmulatedController
  exact unboundPart_foldEvents events _

theorem unbound_read_update (u : UnboundButton) (ec : EmulatedGameController)
    (events : List SDL_Event) :
    u.read (updateEmulatedController ec events) = decayed (u.read ec) := by
  have h := unboundPart_update ec events
  simp only [unboundPart, Prod.mk.injEq, List.cons.injEq, and_true] at h
  obtain ⟨_, ha, hb, hlsb, hrsb, hpu, hpd, hpl, hpr, hst, hgd⟩ := h
  cases u
  · exact ha.trans (decay_button _)
  · exact hb.trans (decay_button _)
  · exact hlsb.trans (decay_button _)
  · exact hrsb.trans (decay_button _)
  · exact hpu.trans (decay_button _)
  · exact hpd.trans (decay_button _)
  · exact hpl.trans (decay_button _)
  · exact hpr.trans (decay_button _)
  · exact hst.trans (decay_button _)
  · exact hgd.trans (decay_button _)

theorem analogue_update (ec : EmulatedGameController) (events : List SDL_Event) :
    (updateEmulatedController ec events).state.leftTrigger = ec.state.leftTrigger ∧
    (updateEmulatedController ec events).state.rightTrigger = ec.state.rightTrigger ∧
    (updateEmulatedController ec events).state.triggerDeadzone = ec.state.triggerDeadzone ∧
    (updateEmulatedController ec events).state.stickDeadzone = ec.state.stickDeadzone := by
  have h := unboundPart_update ec events
  simp only [unboundPart, Prod.mk.injEq, List.cons.injEq, and_true] at h
  obtain ⟨⟨h1, h2, h3, h4⟩, _⟩ := h
  exact ⟨h1, h2, h3, h4⟩

theorem unbound_runTicks_rest (ticks : List (List SDL_Event)) :
    ∀ ec : EmulatedGameController,
      (∀ u : UnboundButton, u.read ec = ButtonState.NOT_PRESSED) →
      ∀ u : UnboundButton, u.read (runTicks ec ticks) = ButtonState.NOT_PRESSED := by
  induction ticks with
  | nil => intro ec h u; exact h u
  | cons evs rest ih =>
    intro ec h u
    rw [runTicks_cons]
    apply ih
    intro u'
    rw [unbound_read_update, h u']
    rfl

/-- C19: `updateEmulatedController` leaves `leftTrigger`, `rightTrigger`,
`triggerDeadzone` and `stickDeadzone` of the emulated state as they are, and
changes each button without a key binding only by decay, whatever the events
are; from a state in which those buttons are `NOT_PRESSED` they are
`NOT_PRESSED` after every sequence of updates. -/
theorem unbound_frame (ec : EmulatedGameController) (events : List SDL_Event) :
    ((updateEmulatedController ec events).state.leftTrigger = ec.state.leftTrigger ∧
      (updateEmulatedController ec events).state.rightTrigger = ec.state.rightTrigger ∧
      (updateEmulatedController ec events).state.triggerDeadzone = ec.state.triggerDeadzone ∧
      (updateEmulatedController ec events).state.stickDeadzone = ec.state.stickDeadzone) ∧
    (∀ u : UnboundButton,
      u.read (updateEmulatedController ec events) = decayed (u.read ec)) ∧
    (∀ ticks : List (List SDL_Event),
      (∀ u : UnboundButton, u.read ec = ButtonState.NOT_PRESSED) →
      ∀ u : UnboundButton, u.read (runTicks ec ticks) = ButtonState.NOT_PRESSED) :=
  ⟨analogue_update ec events, fun u => unbound_read_update u ec events,
    fun ticks h => unbound_runTicks_rest ticks ec h⟩

/-- Instance of C19: from the rest emulator, two ticks with key events leave the
button `a` at `NOT_PRESSED`. -/
theorem unbound_frame_witness :
    (∀ u : UnboundButton, u.read restController = ButtonState.NOT_PRESSED) ∧
    UnboundButton.a.read
      (runTicks restController [[keyDown KEY_w, keyDown SDLK_ESCAPE], [keyUp KEY_w]])
      = ButtonState.NOT_PRESSED :=
  ⟨fun u => by cases u <;> rfl,
   (unbound_frame restController []).2.2 [[keyDown KEY_w, keyDown SDLK_ESCAPE], [keyUp KEY_w]]
     (fun u => by cases u <;> rfl) UnboundButton.a⟩

/-! ## Escape and the quit directive -/

theorem processInput_back (self : TestbedUpdateable) (updateInfo : UpdateInfo)
    (input : UserInput) (hnone : input.controllers 0 = none) :
    (processInput self updateInfo input).2.mCtrl.back =
      BoundControl.back.read (updateEmulatedController self.mEmulatedController input.events) := by
  unfold processInput
  simp only [hnone]
  rfl

/-- C20: without a real controller at index 0, `processInput` followed by
`updateTick` returns `QUIT` exactly when the last Escape event of the tick's
event list is a key-up; it returns `NO_OP` when the last Escape event is a
key-down, and when there is no Escape event, whatever the back button was
before. -/
theorem escape_quits (self : TestbedUpdateable) (updateInfo : UpdateInfo) (input : UserInput)
    (hnone : input.controllers 0 = none) :
    ((updateTick (processInput self updateInfo input).2 updateInfo).1 = UpdateOp.QUIT ↔
      ∃ e, lastEventFor BoundControl.back input.events = some e ∧ e.type = SDL_KEYUP) ∧
    (∀ e, lastEventFor BoundControl.back input.events = some e → e.type = SDL_KEYDOWN →
      (updateTick (processInput self updateInfo input).2 updateInfo).1 = UpdateOp.NO_OP) ∧
    (lastEventFor BoundControl.back input.events = none →
      (updateTick (processInput self updateInfo input).2 updateInfo).1 = UpdateOp.NO_OP) := by
  have hback := processInput_back self updateInfo input hnone
  rw [read_update] at hback
  rw [updateTick_directive, hback]
  cases hl : lastEventFor BoundControl.back input.events with
  | none =>
    have hne : decayed (BoundControl.back.read self.mEmulatedController) ≠ ButtonState.UP := by
      cases BoundControl.back.read self.mEmulatedController <;> decide
    simp [hne]
  | some e =>
    have hty := concerns_type _ e (lastEventFor_concerns _ _ e hl).2
    rcases hty with hd | hu
    · have hnu : e.type ≠ SDL_KEYUP := by rw [hd]; decide
      simp [hd, hnu]
    · have hnd : e.type ≠ SDL_KEYDOWN := by rw [hu]; decide
      simp [hu, hnd]

/-- Instance of C20: the release of Escape as the only event, without a
controller, returns `QUIT`. -/
theorem escape_quits_witness :
    (keyboardInput [keyUp SDLK_ESCAPE]).controllers 0 = none ∧
    (updateTick
      (processInput (testbedWith forwardCamera restState) ⟨0.1⟩
        (keyboardInput [keyUp SDLK_ESCAPE])).2 ⟨0.1⟩).1 = UpdateOp.QUIT :=
  ⟨rfl,
   (escape_quits (testbedWith forwardCamera restState) ⟨0.1⟩ (keyboardInput [keyUp SDLK_ESCAPE])
      rfl).1.mpr ⟨keyUp SDLK_ESCAPE, by decide, rfl⟩⟩

/-! ## The final re-orthonormalisation in binary32 -/

set_option maxRecDepth 8000 in
theorem binary32_samples :
    fadd (some ⟨1, 0⟩) (some ⟨1, -24⟩) = some ⟨1, 0⟩ ∧
    fadd (some ⟨1, 0⟩) (some ⟨3, -25⟩) = some ⟨8388609, -23⟩ ∧
    fdiv (some ⟨1, 0⟩) (some ⟨3, 0⟩) = some ⟨11184811, -25⟩ ∧
    fsqrt (some ⟨2, 0⟩) = some ⟨11863283, -23⟩ ∧
    fmul (some ⟨13421773, -27⟩) (some ⟨13421773, -27⟩) = some ⟨10737419, -30⟩ ∧
    fdiv (some ⟨1, 0⟩) (some ⟨0, 0⟩) = none ∧
    fmul (some ⟨1, 127⟩) (some ⟨2, 0⟩) = none ∧
    fsqrt (some ⟨-1, 0⟩) = none := by
  refine ⟨by decide, by decide, by decide, by decide, by decide, by decide, by decide,
    by decide⟩

theorem nearVertical_tick :
    (updateTick (testbedWith nearVerticalCamera restState) ⟨0.1⟩).1 = UpdateOp.NO_OP ∧
    (updateTick (testbedWith nearVerticalCamera restState) ⟨0.1⟩).2.mCam =
      setDir nearVerticalCamera nearVerticalCamera.dir ⟨0, 1, 0⟩ := by
  have hn : (updateTick (testbedWith nearVerticalCamera restState) ⟨0.1⟩).1
      = UpdateOp.NO_OP := by
    rw [updateTick_directive]
    rfl
  refine ⟨hn, ?_⟩
  rw [updateTick_no_op_camera _ _ hn,
    cameraBeforeMenu_at_rest nearVerticalCamera restState ⟨0.1⟩ rfl rfl rfl rfl rfl]

set_option maxRecDepth 8000 in
/-- C17, as stated, fails in the arithmetic of the code.  A tick at rest from the
camera with direction `(0, 1, 6151831 * 2 ^ -47)` returns `NO_OP` and ends with
the call `setDir (mCam.dir, vec3 (0, 1, 0))` on that camera.  In binary32 the
call keeps the direction, which is not parallel to the world up axis; the vector
`W - dot (W, dir) * dir` it hands to `normalize` has lost its `y` component
(`1 - 1 * 1`), so the resulting up is `(0, 0, -1)`: its `y` is zero, not
strictly positive. -/
theorem up_from_direction_counterexample :
    ((updateTick (testbedWith nearVerticalCamera restState) ⟨0.1⟩).1 = UpdateOp.NO_OP ∧
      (updateTick (testbedWith nearVerticalCamera restState) ⟨0.1⟩).2.mCam =
        setDir nearVerticalCamera nearVerticalCamera.dir ⟨0, 1, 0⟩) ∧
    (setDirF nearVerticalCameraF nearVerticalCameraF.dir worldUpF).dir =
      ⟨some ⟨0, 0⟩, some ⟨1, 0⟩, some ⟨6151831, -47⟩⟩ ∧
    ¬ parallelToWorldUpF (setDirF nearVerticalCameraF nearVerticalCameraF.dir worldUpF).dir ∧
    Vec3F.sub worldUpF
        (Vec3F.scale (setDirF nearVerticalCameraF nearVerticalCameraF.dir worldUpF).dir
          (Vec3F.dot worldUpF
            (setDirF nearVerticalCameraF nearVerticalCameraF.dir worldUpF).dir)) =
      ⟨some ⟨0, 0⟩, some ⟨0, 0⟩, some ⟨-6151831, -47⟩⟩ ∧
    (setDirF nearVerticalCameraF nearVerticalCameraF.dir worldUpF).up =
      ⟨some ⟨0, 0⟩, some ⟨0, 0⟩, some ⟨-1, 0⟩⟩ ∧
    F32.isPositive (setDirF nearVerticalCameraF nearVerticalCameraF.dir worldUpF).up.y
      = false := by
  refine ⟨nearVertical_tick, by decide, by decide, by decide, by decide, by decide⟩

end PhantasyTestbed
